import Mathlib

/-!
# Verification of the voltage-iec104 protocol engine

A shallow embedding of the IEC 60870-5-104 client implementation
(`src/types/apci.rs`, `src/types/asdu.rs`, `src/types/cot.rs`,
`src/types/type_id.rs`, `src/types/data.rs`, `src/codec.rs`, `src/parser.rs`,
`src/client.rs`) in Lean 4, together with theorems settling the specification
claims about the frame codec, the sliding-window flow control, and the ASDU
parser.

Bytes are modelled as `Nat` (values < 256 on a real wire); Rust integer casts
(`as u8`, `as u16`) are rendered as explicit `% 256` / `% 65536` where the
source performs them.  Fallible Rust functions returning `Result` become
`Except Iec104Error`.  `f32` payloads are kept as their raw little-endian wire
words / integers: the parser claims under study concern addresses, sizes and
timestamps, never floating-point values, and keeping the raw word preserves
all information in the wire bytes.
-/

namespace Voltage104

/-! ## Bit-arithmetic bridging lemmas -/

theorem and_255_eq_mod (x : Nat) : x &&& 255 = x % 256 :=
  Nat.and_pow_two_sub_one_eq_mod x 8

theorem and_127_eq_mod (x : Nat) : x &&& 127 = x % 128 :=
  Nat.and_pow_two_sub_one_eq_mod x 7

theorem and_63_eq_mod (x : Nat) : x &&& 63 = x % 64 :=
  Nat.and_pow_two_sub_one_eq_mod x 6

theorem and_31_eq_mod (x : Nat) : x &&& 31 = x % 32 :=
  Nat.and_pow_two_sub_one_eq_mod x 5

theorem and_15_eq_mod (x : Nat) : x &&& 15 = x % 16 :=
  Nat.and_pow_two_sub_one_eq_mod x 4

theorem and_7_eq_mod (x : Nat) : x &&& 7 = x % 8 :=
  Nat.and_pow_two_sub_one_eq_mod x 3

theorem and_3_eq_mod (x : Nat) : x &&& 3 = x % 4 :=
  Nat.and_pow_two_sub_one_eq_mod x 2

theorem and_1_eq_mod (x : Nat) : x &&& 1 = x % 2 :=
  Nat.and_pow_two_sub_one_eq_mod x 1

/-- Reassembling a value from its low bits and its shifted high bits:
`lo ||| (hi <<< k) = lo + hi * 2 ^ k` whenever `lo < 2 ^ k`. -/
theorem lor_shiftLeft_eq_add (lo hi k : Nat) (h : lo < 2 ^ k) :
    lo ||| (hi <<< k) = lo + hi * 2 ^ k := by
  have h1 := Nat.mul_add_lt_is_or (a := hi) h
  rw [Nat.shiftLeft_eq, Nat.lor_comm, Nat.mul_comm]
  omega

theorem lor_shiftLeft7_eq_add (lo hi : Nat) (h : lo < 128) :
    lo ||| (hi <<< 7) = lo + hi * 128 := by
  have h1 := lor_shiftLeft_eq_add lo hi 7 (by simpa using h)
  simpa using h1

theorem lor_shiftLeft8_eq_add (lo hi : Nat) (h : lo < 256) :
    lo ||| (hi <<< 8) = lo + hi * 256 := by
  have h1 := lor_shiftLeft_eq_add lo hi 8 (by simpa using h)
  simpa using h1

theorem lor_shiftLeft16_eq_add (lo hi : Nat) (h : lo < 65536) :
    lo ||| (hi <<< 16) = lo + hi * 65536 := by
  have h1 := lor_shiftLeft_eq_add lo hi 16 (by simpa using h)
  simpa using h1

theorem shiftRight_8_eq_div (x : Nat) : x >>> 8 = x / 256 := by
  rw [Nat.shiftRight_eq_div_pow]

theorem shiftRight_7_eq_div (x : Nat) : x >>> 7 = x / 128 := by
  rw [Nat.shiftRight_eq_div_pow]

theorem shiftRight_16_eq_div (x : Nat) : x >>> 16 = x / 65536 := by
  rw [Nat.shiftRight_eq_div_pow]

theorem shiftLeft_7_eq_mul (x : Nat) : x <<< 7 = x * 128 := by
  rw [Nat.shiftLeft_eq]

theorem shiftLeft_8_eq_mul (x : Nat) : x <<< 8 = x * 256 := by
  rw [Nat.shiftLeft_eq]

theorem shiftLeft_16_eq_mul (x : Nat) : x <<< 16 = x * 65536 := by
  rw [Nat.shiftLeft_eq]

/-! ## Errors (`src/error.rs`)

Only the structure of `Iec104Error` is kept; human-readable message strings
are dropped. -/

/-- The error variants of `Iec104Error` reachable from the embedded code. -/
inductive Iec104Error where
  | InvalidFrame
  | InvalidAsdu
  | UnknownTypeId (value : Nat)
  | Protocol
  | Codec
  | NotConnected
  | SequenceMismatch (expected actual : Nat)
  | TooManyUnconfirmed (k : Nat)
deriving DecidableEq, Repr

deriving instance DecidableEq for Except

/-! ## U-frame functions (`src/types/apci.rs`) -/

/-- `UFunction`: the six U-frame control functions. -/
inductive UFunction where
  | StartDtAct
  | StartDtCon
  | StopDtAct
  | StopDtCon
  | TestFrAct
  | TestFrCon
deriving DecidableEq, Repr

/-- `UFunction::control_byte`. -/
def UFunction.control_byte : UFunction → Nat
  | .StartDtAct => 0x07
  | .StartDtCon => 0x0B
  | .StopDtAct => 0x13
  | .StopDtCon => 0x23
  | .TestFrAct => 0x43
  | .TestFrCon => 0x83

/-- `UFunction::from_control_byte`. -/
def UFunction.from_control_byte (byte : Nat) : Except Iec104Error UFunction :=
  match byte with
  | 0x07 => .ok .StartDtAct
  | 0x0B => .ok .StartDtCon
  | 0x13 => .ok .StopDtAct
  | 0x23 => .ok .StopDtCon
  | 0x43 => .ok .TestFrAct
  | 0x83 => .ok .TestFrCon
  | _ => .error .InvalidFrame

/-! ## APCI (`src/types/apci.rs`) -/

/-- `START_BYTE`. -/
def START_BYTE : Nat := 0x68

/-- `MIN_APDU_LENGTH`. -/
def MIN_APDU_LENGTH : Nat := 4

/-- `MAX_APDU_LENGTH`. -/
def MAX_APDU_LENGTH : Nat := 253

/-- `Apci`: the three frame kinds with their sequence-number payloads. -/
inductive Apci where
  | IFrame (send_seq recv_seq : Nat)
  | SFrame (recv_seq : Nat)
  | UFrame (function : UFunction)
deriving DecidableEq, Repr

namespace Apci

/-- `Apci::parse` (expects the 4 control-field bytes). -/
def parse (control : List Nat) : Except Iec104Error Apci :=
  if control.length < 4 then .error .InvalidFrame
  else
    let cf1 := control.getD 0 0
    if cf1 &&& 0x01 = 0 then
      let send_seq := (control.getD 1 0) <<< 7 ||| (cf1 >>> 1)
      let recv_seq := (control.getD 3 0) <<< 7 ||| ((control.getD 2 0) >>> 1)
      .ok (.IFrame send_seq recv_seq)
    else if cf1 &&& 0x03 = 0x01 then
      let recv_seq := (control.getD 3 0) <<< 7 ||| ((control.getD 2 0) >>> 1)
      .ok (.SFrame recv_seq)
    else if cf1 &&& 0x03 = 0x03 then
      (UFunction.from_control_byte cf1).map (fun f => .UFrame f)
    else
      .error .InvalidFrame

/-- `Apci::encode` (4 control-field bytes); the `as u8` casts of the source
appear as `% 256`. -/
def encode : Apci → List Nat
  | .IFrame s r =>
      [((s &&& 0x7F) <<< 1) % 256, (s >>> 7) % 256,
       ((r &&& 0x7F) <<< 1) % 256, (r >>> 7) % 256]
  | .SFrame r =>
      [0x01, 0x00, ((r &&& 0x7F) <<< 1) % 256, (r >>> 7) % 256]
  | .UFrame f => [f.control_byte, 0x00, 0x00, 0x00]

/-- `Apci::encode_header`: start byte, length byte (`as u8` cast) and the four
control bytes. -/
def encode_header (a : Apci) (asdu_len : Nat) : List Nat :=
  START_BYTE :: ((4 + asdu_len) % 256) :: a.encode

/-- `Apci::is_i_frame`. -/
def is_i_frame : Apci → Bool
  | .IFrame _ _ => true
  | _ => false

end Apci

/-- The low 7 bits shifted left once and truncated to a byte: recovering them
with `>>> 1` round-trips (byte-level fact used by the APCI round-trip). -/
theorem shifted_low7_recover : ∀ x < 128, ((x <<< 1) % 256) >>> 1 = x := by
  decide

theorem shifted_low7_even : ∀ x < 128, ((x <<< 1) % 256) &&& 1 = 0 := by
  decide

/-- `Apci.parse` evaluated on an explicit 4-byte control field. -/
theorem apci_parse_control_list (b0 b1 b2 b3 : Nat) :
    Apci.parse [b0, b1, b2, b3] =
      (if b0 &&& 0x01 = 0 then
        .ok (.IFrame (b1 <<< 7 ||| (b0 >>> 1)) (b3 <<< 7 ||| (b2 >>> 1)))
      else if b0 &&& 0x03 = 0x01 then
        .ok (.SFrame (b3 <<< 7 ||| (b2 >>> 1)))
      else if b0 &&& 0x03 = 0x03 then
        (UFunction.from_control_byte b0).map (fun f => Apci.UFrame f)
      else .error .InvalidFrame) := by
  simp [Apci.parse, List.getD]

/-- A 15-bit value split into a 7-low-bit byte (shifted left once) and a
high byte is reassembled exactly by the `Apci::parse` arithmetic. -/
theorem seq_split_recover (x : Nat) (hx : x < 32768) :
    ((x >>> 7) % 256) <<< 7 ||| ((((x &&& 0x7F) <<< 1) % 256) >>> 1) = x := by
  have h7 : x &&& 0x7F = x % 128 := and_127_eq_mod x
  have hlow : x % 128 < 128 := Nat.mod_lt _ (by norm_num)
  have h1 : (((x % 128) <<< 1) % 256) >>> 1 = x % 128 :=
    shifted_low7_recover (x % 128) hlow
  have h2 : x >>> 7 = x / 128 := shiftRight_7_eq_div x
  have h3 : x / 128 < 256 := by omega
  rw [h7, h1, h2, Nat.mod_eq_of_lt h3, Nat.lor_comm,
    lor_shiftLeft_eq_add _ _ _ hlow]
  have : (2 : Nat) ^ 7 = 128 := by norm_num
  rw [this]
  omega

/-- `Apci::parse` inverts `Apci::encode` whenever the sequence numbers fit in
15 bits. -/
theorem apci_parse_encode (a : Apci)
    (h : match a with
         | .IFrame s r => s < 32768 ∧ r < 32768
         | .SFrame r => r < 32768
         | .UFrame _ => True) :
    Apci.parse a.encode = .ok a := by
  match a with
  | .IFrame s r =>
    obtain ⟨hs, hr⟩ := h
    have heven : (((s &&& 0x7F) <<< 1) % 256) &&& 1 = 0 := by
      rw [and_127_eq_mod]
      exact shifted_low7_even (s % 128) (Nat.mod_lt _ (by norm_num))
    rw [show (Apci.IFrame s r).encode =
        [((s &&& 0x7F) <<< 1) % 256, (s >>> 7) % 256,
         ((r &&& 0x7F) <<< 1) % 256, (r >>> 7) % 256] from rfl,
      apci_parse_control_list, if_pos heven, seq_split_recover s hs,
      seq_split_recover r hr]
  | .SFrame r =>
    rw [show (Apci.SFrame r).encode =
        [0x01, 0x00, ((r &&& 0x7F) <<< 1) % 256, (r >>> 7) % 256] from rfl,
      apci_parse_control_list, if_neg (by decide), if_pos (by decide),
      seq_split_recover r h]
  | .UFrame f =>
    cases f <;> rfl

/-! ## Type identifiers (`src/types/type_id.rs`) -/

/-- `TypeId`: the 34 supported type identifications. -/
inductive TypeId where
  | SinglePoint
  | SinglePointTime24
  | DoublePoint
  | DoublePointTime24
  | StepPosition
  | Bitstring32
  | MeasuredNormalized
  | MeasuredNormalizedTime24
  | MeasuredScaled
  | MeasuredScaledTime24
  | MeasuredFloat
  | MeasuredFloatTime24
  | IntegratedTotals
  | SinglePointTime56
  | DoublePointTime56
  | MeasuredFloatTime56
  | SingleCommand
  | DoubleCommand
  | RegulatingStep
  | SetpointNormalized
  | SetpointScaled
  | SetpointFloat
  | Bitstring32Command
  | SingleCommandTime56
  | DoubleCommandTime56
  | SetpointFloatTime56
  | EndOfInit
  | InterrogationCommand
  | CounterInterrogation
  | ReadCommand
  | ClockSync
  | TestCommand
  | ResetProcess
  | TestCommandTime56
deriving DecidableEq, Repr

/-- `TypeId::from_u8`. -/
def TypeId.from_u8 (value : Nat) : Except Iec104Error TypeId :=
  match value with
  | 1 => .ok .SinglePoint
  | 2 => .ok .SinglePointTime24
  | 3 => .ok .DoublePoint
  | 4 => .ok .DoublePointTime24
  | 5 => .ok .StepPosition
  | 7 => .ok .Bitstring32
  | 9 => .ok .MeasuredNormalized
  | 10 => .ok .MeasuredNormalizedTime24
  | 11 => .ok .MeasuredScaled
  | 12 => .ok .MeasuredScaledTime24
  | 13 => .ok .MeasuredFloat
  | 14 => .ok .MeasuredFloatTime24
  | 15 => .ok .IntegratedTotals
  | 30 => .ok .SinglePointTime56
  | 31 => .ok .DoublePointTime56
  | 36 => .ok .MeasuredFloatTime56
  | 45 => .ok .SingleCommand
  | 46 => .ok .DoubleCommand
  | 47 => .ok .RegulatingStep
  | 48 => .ok .SetpointNormalized
  | 49 => .ok .SetpointScaled
  | 50 => .ok .SetpointFloat
  | 51 => .ok .Bitstring32Command
  | 58 => .ok .SingleCommandTime56
  | 59 => .ok .DoubleCommandTime56
  | 63 => .ok .SetpointFloatTime56
  | 70 => .ok .EndOfInit
  | 100 => .ok .InterrogationCommand
  | 101 => .ok .CounterInterrogation
  | 102 => .ok .ReadCommand
  | 103 => .ok .ClockSync
  | 104 => .ok .TestCommand
  | 105 => .ok .ResetProcess
  | 107 => .ok .TestCommandTime56
  | v => .error (.UnknownTypeId v)

/-- `TypeId::as_u8` (the `#[repr(u8)]` discriminant). -/
def TypeId.as_u8 : TypeId → Nat
  | .SinglePoint => 1
  | .SinglePointTime24 => 2
  | .DoublePoint => 3
  | .DoublePointTime24 => 4
  | .StepPosition => 5
  | .Bitstring32 => 7
  | .MeasuredNormalized => 9
  | .MeasuredNormalizedTime24 => 10
  | .MeasuredScaled => 11
  | .MeasuredScaledTime24 => 12
  | .MeasuredFloat => 13
  | .MeasuredFloatTime24 => 14
  | .IntegratedTotals => 15
  | .SinglePointTime56 => 30
  | .DoublePointTime56 => 31
  | .MeasuredFloatTime56 => 36
  | .SingleCommand => 45
  | .DoubleCommand => 46
  | .RegulatingStep => 47
  | .SetpointNormalized => 48
  | .SetpointScaled => 49
  | .SetpointFloat => 50
  | .Bitstring32Command => 51
  | .SingleCommandTime56 => 58
  | .DoubleCommandTime56 => 59
  | .SetpointFloatTime56 => 63
  | .EndOfInit => 70
  | .InterrogationCommand => 100
  | .CounterInterrogation => 101
  | .ReadCommand => 102
  | .ClockSync => 103
  | .TestCommand => 104
  | .ResetProcess => 105
  | .TestCommandTime56 => 107

theorem typeId_from_u8_as_u8 (t : TypeId) : TypeId.from_u8 t.as_u8 = .ok t := by
  cases t <;> rfl

/-! ## Cause of transmission (`src/types/cot.rs`) -/

/-- `Cot`: the supported causes of transmission. -/
inductive Cot where
  | Periodic
  | Background
  | Spontaneous
  | Initialized
  | Request
  | Activation
  | ActivationConfirm
  | Deactivation
  | DeactivationConfirm
  | ActivationTermination
  | ReturnRemoteCommand
  | ReturnLocalCommand
  | FileTransfer
  | InterrogatedByStation
  | InterrogatedByGroup1
  | InterrogatedByGroup2
  | InterrogatedByGroup3
  | InterrogatedByGroup4
  | InterrogatedByGroup5
  | InterrogatedByGroup6
  | InterrogatedByGroup7
  | InterrogatedByGroup8
  | InterrogatedByGroup9
  | InterrogatedByGroup10
  | InterrogatedByGroup11
  | InterrogatedByGroup12
  | InterrogatedByGroup13
  | InterrogatedByGroup14
  | InterrogatedByGroup15
  | InterrogatedByGroup16
  | RequestedByGeneralCounter
  | RequestedByGroup1Counter
  | RequestedByGroup2Counter
  | RequestedByGroup3Counter
  | RequestedByGroup4Counter
  | UnknownTypeId
  | UnknownCot
  | UnknownCommonAddress
  | UnknownIoa
deriving DecidableEq, Repr

/-- `Cot::from_u8`: masks to the lower 6 bits, then matches the closed set. -/
def Cot.from_u8 (value : Nat) : Except Iec104Error Cot :=
  let cot_value := value &&& 0x3F
  match cot_value with
  | 1 => .ok .Periodic
  | 2 => .ok .Background
  | 3 => .ok .Spontaneous
  | 4 => .ok .Initialized
  | 5 => .ok .Request
  | 6 => .ok .Activation
  | 7 => .ok .ActivationConfirm
  | 8 => .ok .Deactivation
  | 9 => .ok .DeactivationConfirm
  | 10 => .ok .ActivationTermination
  | 11 => .ok .ReturnRemoteCommand
  | 12 => .ok .ReturnLocalCommand
  | 13 => .ok .FileTransfer
  | 20 => .ok .InterrogatedByStation
  | 21 => .ok .InterrogatedByGroup1
  | 22 => .ok .InterrogatedByGroup2
  | 23 => .ok .InterrogatedByGroup3
  | 24 => .ok .InterrogatedByGroup4
  | 25 => .ok .InterrogatedByGroup5
  | 26 => .ok .InterrogatedByGroup6
  | 27 => .ok .InterrogatedByGroup7
  | 28 => .ok .InterrogatedByGroup8
  | 29 => .ok .InterrogatedByGroup9
  | 30 => .ok .InterrogatedByGroup10
  | 31 => .ok .InterrogatedByGroup11
  | 32 => .ok .InterrogatedByGroup12
  | 33 => .ok .InterrogatedByGroup13
  | 34 => .ok .InterrogatedByGroup14
  | 35 => .ok .InterrogatedByGroup15
  | 36 => .ok .InterrogatedByGroup16
  | 37 => .ok .RequestedByGeneralCounter
  | 38 => .ok .RequestedByGroup1Counter
  | 39 => .ok .RequestedByGroup2Counter
  | 40 => .ok .RequestedByGroup3Counter
  | 41 => .ok .RequestedByGroup4Counter
  | 44 => .ok .UnknownTypeId
  | 45 => .ok .UnknownCot
  | 46 => .ok .UnknownCommonAddress
  | 47 => .ok .UnknownIoa
  | _ => .error .Protocol

/-- `Cot::as_u8` (the `#[repr(u8)]` discriminant). -/
def Cot.as_u8 : Cot → Nat
  | .Periodic => 1
  | .Background => 2
  | .Spontaneous => 3
  | .Initialized => 4
  | .Request => 5
  | .Activation => 6
  | .ActivationConfirm => 7
  | .Deactivation => 8
  | .DeactivationConfirm => 9
  | .ActivationTermination => 10
  | .ReturnRemoteCommand => 11
  | .ReturnLocalCommand => 12
  | .FileTransfer => 13
  | .InterrogatedByStation => 20
  | .InterrogatedByGroup1 => 21
  | .InterrogatedByGroup2 => 22
  | .InterrogatedByGroup3 => 23
  | .InterrogatedByGroup4 => 24
  | .InterrogatedByGroup5 => 25
  | .InterrogatedByGroup6 => 26
  | .InterrogatedByGroup7 => 27
  | .InterrogatedByGroup8 => 28
  | .InterrogatedByGroup9 => 29
  | .InterrogatedByGroup10 => 30
  | .InterrogatedByGroup11 => 31
  | .InterrogatedByGroup12 => 32
  | .InterrogatedByGroup13 => 33
  | .InterrogatedByGroup14 => 34
  | .InterrogatedByGroup15 => 35
  | .InterrogatedByGroup16 => 36
  | .RequestedByGeneralCounter => 37
  | .RequestedByGroup1Counter => 38
  | .RequestedByGroup2Counter => 39
  | .RequestedByGroup3Counter => 40
  | .RequestedByGroup4Counter => 41
  | .UnknownTypeId => 44
  | .UnknownCot => 45
  | .UnknownCommonAddress => 46
  | .UnknownIoa => 47

/-! ## VSQ, IOA, ASDU header and ASDU (`src/types/asdu.rs`) -/

/-- `Vsq`: object count (7 bits) plus sequence flag. -/
structure Vsq where
  count : Nat
  sequence : Bool
deriving DecidableEq, Repr

/-- `Vsq::new`. -/
def Vsq.new (count : Nat) (sequence : Bool) : Vsq := ⟨count, sequence⟩

/-- `Vsq::from_u8`. -/
def Vsq.from_u8 (value : Nat) : Vsq :=
  ⟨value &&& 0x7F, value &&& 0x80 != 0⟩

/-- `Vsq::as_u8`. -/
def Vsq.as_u8 (v : Vsq) : Nat :=
  (v.count &&& 0x7F) ||| (if v.sequence then 0x80 else 0)

theorem vsq_from_u8_as_u8 : ∀ c < 128, ∀ s : Bool,
    Vsq.from_u8 (Vsq.as_u8 ⟨c, s⟩) = ⟨c, s⟩ := by
  decide

/-- `IOA_SIZE`. -/
def IOA_SIZE : Nat := 3

/-- `Ioa::new`: masks to the low 24 bits.  The `Ioa` newtype itself is
modelled as a plain `Nat`. -/
def Ioa.new (value : Nat) : Nat := value &&& 0x00FFFFFF

/-- `Ioa::to_bytes` (3 bytes, little-endian). -/
def Ioa.to_bytes (v : Nat) : List Nat :=
  [v &&& 0xFF, (v >>> 8) &&& 0xFF, (v >>> 16) &&& 0xFF]

/-- `AsduHeader`. -/
structure AsduHeader where
  type_id : TypeId
  vsq : Vsq
  cot : Cot
  test : Bool
  negative : Bool
  originator : Nat
  common_address : Nat
deriving DecidableEq, Repr

/-- `AsduHeader::new`. -/
def AsduHeader.new (type_id : TypeId) (count : Nat) (cot : Cot)
    (common_address : Nat) : AsduHeader :=
  ⟨type_id, Vsq.new count false, cot, false, false, 0, common_address⟩

/-- `AsduHeader::parse`: returns the header and the number of consumed
bytes. -/
def AsduHeader.parse (data : List Nat) :
    Except Iec104Error (AsduHeader × Nat) :=
  if data.length < 6 then .error .InvalidAsdu
  else
    match TypeId.from_u8 (data.getD 0 0) with
    | .error e => .error e
    | .ok type_id =>
      let vsq := Vsq.from_u8 (data.getD 1 0)
      match Cot.from_u8 (data.getD 2 0) with
      | .error e => .error e
      | .ok cot =>
        let test := (data.getD 2 0) &&& 0x80 != 0
        let negative := (data.getD 2 0) &&& 0x40 != 0
        let originator := data.getD 3 0
        let common_address := (data.getD 4 0) ||| ((data.getD 5 0) <<< 8)
        .ok (⟨type_id, vsq, cot, test, negative, originator, common_address⟩, 6)

/-- `AsduHeader::encode` (6 bytes appended to the buffer); `put_u16_le`
renders as the two little-endian bytes of `common_address`. -/
def AsduHeader.encode (h : AsduHeader) : List Nat :=
  let cot_byte := (h.cot.as_u8 ||| (if h.test then 0x80 else 0)) |||
    (if h.negative then 0x40 else 0)
  [h.type_id.as_u8, h.vsq.as_u8, cot_byte, h.originator,
   h.common_address % 256, (h.common_address / 256) % 256]

/-- `InformationObject`. -/
structure InformationObject where
  ioa : Nat
  data : List Nat
deriving DecidableEq, Repr

/-- `Asdu`. -/
structure Asdu where
  header : AsduHeader
  objects : List InformationObject
  raw_data : List Nat
deriving DecidableEq, Repr

/-- `Asdu::new`. -/
def Asdu.new (header : AsduHeader) : Asdu := ⟨header, [], []⟩

/-- `Asdu::interrogation_command`. -/
def Asdu.interrogation_command (common_address qoi : Nat) : Asdu :=
  { Asdu.new (AsduHeader.new .InterrogationCommand 1 .Activation
      common_address) with
    objects := [⟨Ioa.new 0, [qoi]⟩] }

/-- `Asdu::parse_bytes`: parses only the 6-byte header; the remainder is kept
verbatim as `raw_data` and `objects` stays empty. -/
def Asdu.parse_bytes (data : List Nat) : Except Iec104Error Asdu :=
  match AsduHeader.parse data with
  | .error e => .error e
  | .ok (header, header_len) => .ok ⟨header, [], data.drop header_len⟩

/-- `Asdu::encode_to`: header, then the objects (IOA + payload each), or the
raw payload when no parsed objects are present. -/
def Asdu.encode_to (a : Asdu) : List Nat :=
  a.header.encode
    ++ (a.objects.flatMap fun o => Ioa.to_bytes o.ioa ++ o.data)
    ++ (if a.objects.isEmpty && !a.raw_data.isEmpty then a.raw_data else [])

/-- `Asdu::encoded_len`. -/
def Asdu.encoded_len (a : Asdu) : Nat :=
  let len := 6 + (a.objects.map (fun o => 3 + o.data.length)).sum
  if a.objects.isEmpty then len + a.raw_data.length else len

/-! ### ASDU header round-trip lemmas -/

theorem cot_byte_mask_63 : ∀ c < 64, ∀ t n : Bool,
    ((c ||| (if t then 0x80 else 0)) ||| (if n then 0x40 else 0)) &&& 0x3F
      = c := by
  decide

theorem cot_byte_bit_128 : ∀ c < 64, ∀ t n : Bool,
    ((((c ||| (if t then 0x80 else 0)) ||| (if n then 0x40 else 0)) &&& 0x80)
      != 0) = t := by
  decide

theorem cot_byte_bit_64 : ∀ c < 64, ∀ t n : Bool,
    ((((c ||| (if t then 0x80 else 0)) ||| (if n then 0x40 else 0)) &&& 0x40)
      != 0) = n := by
  decide

theorem Cot.as_u8_lt (c : Cot) : c.as_u8 < 64 := by
  cases c <;> decide

theorem Cot.from_u8_and_63 (v : Nat) : Cot.from_u8 v = Cot.from_u8 (v &&& 0x3F) := by
  have h : v &&& 0x3F &&& 0x3F = v &&& 0x3F := by
    rw [and_63_eq_mod (v &&& 0x3F), and_63_eq_mod v, Nat.mod_mod_of_dvd _ dvd_rfl]
  rw [Cot.from_u8, Cot.from_u8, h]

theorem cot_from_u8_as_u8 (c : Cot) : Cot.from_u8 c.as_u8 = .ok c := by
  cases c <;> rfl

/-- `AsduHeader.parse` evaluated on an explicit byte list of length ≥ 6. -/
theorem asdu_header_parse_list (b0 b1 b2 b3 b4 b5 : Nat) (rest : List Nat) :
    AsduHeader.parse (b0 :: b1 :: b2 :: b3 :: b4 :: b5 :: rest) =
      (match TypeId.from_u8 b0 with
      | .error e => .error e
      | .ok type_id =>
        match Cot.from_u8 b2 with
        | .error e => .error e
        | .ok cot =>
          .ok (⟨type_id, Vsq.from_u8 b1, cot, b2 &&& 0x80 != 0,
            b2 &&& 0x40 != 0, b3, b4 ||| (b5 <<< 8)⟩, 6)) := by
  simp [AsduHeader.parse, List.getD]

/-- `AsduHeader::parse` inverts `AsduHeader::encode` (on any continuation of
the byte stream) when the VSQ count fits in 7 bits and the common address in
16 bits. -/
theorem asdu_header_parse_encode (h : AsduHeader) (hc : h.vsq.count < 128)
    (hca : h.common_address < 65536) (rest : List Nat) :
    AsduHeader.parse (h.encode ++ rest) = .ok (h, 6) := by
  obtain ⟨tid, ⟨c, s⟩, cot, t, n, orig, ca⟩ := h
  simp only [Vsq.count] at hc
  simp only [AsduHeader.common_address] at hca
  have hcot := Cot.as_u8_lt cot
  have hmask := cot_byte_mask_63 cot.as_u8 hcot t n
  have hbit128 := cot_byte_bit_128 cot.as_u8 hcot t n
  have hbit64 := cot_byte_bit_64 cot.as_u8 hcot t n
  have hca_div : ca / 256 % 256 = ca / 256 := Nat.mod_eq_of_lt (by omega)
  have hca_lor : (ca % 256) ||| ((ca / 256) <<< 8) = ca := by
    rw [lor_shiftLeft8_eq_add _ _ (Nat.mod_lt _ (by norm_num))]
    omega
  show AsduHeader.parse
      ([tid.as_u8, Vsq.as_u8 ⟨c, s⟩,
        (cot.as_u8 ||| (if t then 0x80 else 0)) ||| (if n then 0x40 else 0),
        orig, ca % 256, ca / 256 % 256] ++ rest) = _
  rw [List.cons_append, List.cons_append, List.cons_append, List.cons_append,
    List.cons_append, List.cons_append, List.nil_append,
    asdu_header_parse_list, typeId_from_u8_as_u8]
  rw [Cot.from_u8_and_63, hmask, cot_from_u8_as_u8]
  rw [hbit128, hbit64, vsq_from_u8_as_u8 c hc s, hca_div, hca_lor]

/-! ## CP56Time2a (`src/types/asdu.rs`) -/

/-- `Cp56Time2a`: 7-byte timestamp fields. -/
structure Cp56Time2a where
  milliseconds : Nat
  minutes : Nat
  hours : Nat
  day : Nat
  day_of_week : Nat
  month : Nat
  year : Nat
  invalid : Bool
  summer_time : Bool
deriving DecidableEq, Repr

/-- `Cp56Time2a::from_bytes`. -/
def Cp56Time2a.from_bytes (bytes : List Nat) : Except Iec104Error Cp56Time2a :=
  if bytes.length < 7 then .error .InvalidAsdu
  else
    .ok { milliseconds := (bytes.getD 0 0) ||| ((bytes.getD 1 0) <<< 8)
          minutes := (bytes.getD 2 0) &&& 0x3F
          invalid := (bytes.getD 2 0) &&& 0x80 != 0
          hours := (bytes.getD 3 0) &&& 0x1F
          summer_time := (bytes.getD 3 0) &&& 0x80 != 0
          day := (bytes.getD 4 0) &&& 0x1F
          day_of_week := ((bytes.getD 4 0) >>> 5) &&& 0x07
          month := (bytes.getD 5 0) &&& 0x0F
          year := (bytes.getD 6 0) &&& 0x7F }

/-- `Cp56Time2a::to_bytes`. -/
def Cp56Time2a.to_bytes (t : Cp56Time2a) : List Nat :=
  [t.milliseconds &&& 0xFF,
   (t.milliseconds >>> 8) &&& 0xFF,
   (t.minutes &&& 0x3F) ||| (if t.invalid then 0x80 else 0),
   (t.hours &&& 0x1F) ||| (if t.summer_time then 0x80 else 0),
   (t.day &&& 0x1F) ||| ((t.day_of_week &&& 0x07) <<< 5),
   t.month &&& 0x0F,
   t.year &&& 0x7F]

/-! ### CP56Time2a byte-level round-trip facts -/

theorem cp56_byte2_fields : ∀ m < 64, ∀ i : Bool,
    ((m &&& 0x3F) ||| (if i then 0x80 else 0)) &&& 0x3F = m ∧
    ((((m &&& 0x3F) ||| (if i then 0x80 else 0)) &&& 0x80) != 0) = i := by
  decide

theorem cp56_byte3_fields : ∀ h < 32, ∀ s : Bool,
    ((h &&& 0x1F) ||| (if s then 0x80 else 0)) &&& 0x1F = h ∧
    ((((h &&& 0x1F) ||| (if s then 0x80 else 0)) &&& 0x80) != 0) = s := by
  decide

theorem cp56_byte4_fields : ∀ d < 32, ∀ w < 8,
    ((d &&& 0x1F) ||| ((w &&& 0x07) <<< 5)) &&& 0x1F = d ∧
    (((d &&& 0x1F) ||| ((w &&& 0x07) <<< 5)) >>> 5) &&& 0x07 = w := by
  decide

theorem cp56_byte5_field : ∀ m < 16, (m &&& 0x0F) &&& 0x0F = m := by
  decide

theorem cp56_byte6_field : ∀ y < 128, (y &&& 0x7F) &&& 0x7F = y := by
  decide

/-! ## Quality, data values and data points (`src/types/data.rs`) -/

/-- `Quality`: the packed quality byte.  Bit layout:
OV = bit 0, BL = bit 1, SB = bit 2, NT = bit 3, IV = bit 4, EI = bit 5. -/
structure Quality where
  raw : Nat
deriving DecidableEq, Repr

namespace Quality

def OV_MASK : Nat := 0x01
def BL_MASK : Nat := 0x02
def SB_MASK : Nat := 0x04
def NT_MASK : Nat := 0x08
def IV_MASK : Nat := 0x10
def EI_MASK : Nat := 0x20

/-- `Quality::from_siq`: BL/SB/NT/IV taken from SIQ bits 4–7. -/
def from_siq (byte : Nat) : Quality :=
  let raw := 0
  let raw := if byte &&& 0x10 != 0 then raw ||| BL_MASK else raw
  let raw := if byte &&& 0x20 != 0 then raw ||| SB_MASK else raw
  let raw := if byte &&& 0x40 != 0 then raw ||| NT_MASK else raw
  let raw := if byte &&& 0x80 != 0 then raw ||| IV_MASK else raw
  ⟨raw⟩

/-- `Quality::from_diq` (same bit positions as SIQ). -/
def from_diq (byte : Nat) : Quality := from_siq byte

/-- `Quality::from_qds`: OV from bit 0, BL/SB/NT/IV from bits 4–7. -/
def from_qds (byte : Nat) : Quality :=
  let raw := 0
  let raw := if byte &&& 0x01 != 0 then raw ||| OV_MASK else raw
  let raw := if byte &&& 0x10 != 0 then raw ||| BL_MASK else raw
  let raw := if byte &&& 0x20 != 0 then raw ||| SB_MASK else raw
  let raw := if byte &&& 0x40 != 0 then raw ||| NT_MASK else raw
  let raw := if byte &&& 0x80 != 0 then raw ||| IV_MASK else raw
  ⟨raw⟩

/-- `Quality::with_invalid`. -/
def with_invalid (invalid : Bool) : Quality :=
  if invalid then ⟨IV_MASK⟩ else ⟨0⟩

/-- `Quality::is_good`. -/
def is_good (q : Quality) : Bool := q.raw == 0

end Quality

/-- `DoublePointValue`. -/
inductive DoublePointValue where
  | Indeterminate
  | Off
  | On
  | IndeterminateOrFaulty
deriving DecidableEq, Repr

/-- A signed 16-bit value from two little-endian bytes
(`i16::from_le_bytes`); the result is exact as an integer. -/
def i16_from_le (b0 b1 : Nat) : Int :=
  let u := b0 % 256 + (b1 % 256) * 256
  if u < 32768 then (u : Int) else (u : Int) - 65536

/-- A signed 32-bit value from four little-endian bytes
(`i32::from_le_bytes`). -/
def i32_from_le (b0 b1 b2 b3 : Nat) : Int :=
  let u := b0 % 256 + (b1 % 256) * 256 + (b2 % 256) * 65536 +
    (b3 % 256) * 16777216
  if u < 2147483648 then (u : Int) else (u : Int) - 4294967296

/-- An unsigned 32-bit value from four little-endian bytes
(`u32::from_le_bytes`). -/
def u32_from_le (b0 b1 b2 b3 : Nat) : Nat :=
  b0 % 256 + (b1 % 256) * 256 + (b2 % 256) * 65536 + (b3 % 256) * 16777216

/-- `DataValue`.  Floating-point payloads (`Normalized`, `Float`) are kept as
the exact integers decoded from the wire (`Normalized` as the raw signed NVA
word whose `f32` value is `raw / 32768.0`; `Float` as the raw IEEE-754
little-endian 32-bit word): the claims under study never inspect
floating-point values and this keeps the embedding exact and decidable. -/
inductive DataValue where
  | Single (v : Bool)
  | Double (v : DoublePointValue)
  | Normalized (raw : Int)
  | Scaled (v : Int)
  | Float (bits : Nat)
  | Counter (v : Int)
  | Bitstring (v : Nat)
  | StepPosition (v : Int)
  | BinaryCounter (value : Int) (sequence : Nat)
      (carry adjusted invalid : Bool)
deriving DecidableEq, Repr

/-- `DataPoint`. -/
structure DataPoint where
  ioa : Nat
  value : DataValue
  quality : Quality
  timestamp : Option Cp56Time2a
deriving DecidableEq, Repr

/-! ## Information-object parser (`src/parser.rs`) -/

/-- `read_ioa_le`. -/
def read_ioa_le (bytes : List Nat) : Nat :=
  (bytes.getD 0 0) ||| ((bytes.getD 1 0) <<< 8) ||| ((bytes.getD 2 0) <<< 16)

/-- `parse_ioa`. -/
def parse_ioa (bytes : List Nat) : Except Iec104Error Nat :=
  if bytes.length < 3 then .error .InvalidAsdu
  else .ok (read_ioa_le bytes)

/-- The result of decoding one information element: value, quality and
optional timestamp. -/
abbrev ElemResult := DataValue × Quality × Option Cp56Time2a

/-- The object-iteration loop that every `parse_*` function of
`src/parser.rs` repeats verbatim (`for i in 0..count` with a running byte
`offset`, sequenced `first_ioa + i` addressing or an explicit 3-byte IOA per
object from the second object on, and a bounds check of `element_size` before
each element); `readElem` decodes one element starting at the given offset
and `remaining = count - i`. -/
def parseObjectsGo (elemSize : Nat)
    (readElem : List Nat → Nat → Except Iec104Error ElemResult)
    (data : List Nat) (sequence : Bool) (first_ioa : Nat) :
    Nat → Nat → Nat → Except Iec104Error (List DataPoint)
  | 0, _, _ => .ok []
  | remaining + 1, i, offset =>
    let ioaStep : Except Iec104Error (Nat × Nat) :=
      if sequence then .ok (first_ioa + i, offset)
      else if i > 0 then
        if offset + 3 > data.length then .error .InvalidAsdu
        else
          match parse_ioa ((data.drop offset).take 3) with
          | .error e => .error e
          | .ok ioa => .ok (ioa, offset + 3)
      else .ok (first_ioa, offset)
    match ioaStep with
    | .error e => .error e
    | .ok (ioa, offset₁) =>
      if offset₁ + elemSize > data.length then .error .InvalidAsdu
      else
        match readElem data offset₁ with
        | .error e => .error e
        | .ok (v, q, ts) =>
          match parseObjectsGo elemSize readElem data sequence first_ioa
              remaining (i + 1) (offset₁ + elemSize) with
          | .error e => .error e
          | .ok pts => .ok (⟨ioa, v, q, ts⟩ :: pts)

/-- Common prologue of the `parse_*` functions: require 3 bytes, read the
first IOA, then run the object loop from `offset = 3`, `i = 0`. -/
def parseObjects (elemSize : Nat)
    (readElem : List Nat → Nat → Except Iec104Error ElemResult)
    (data : List Nat) (count : Nat) (sequence : Bool) :
    Except Iec104Error (List DataPoint) :=
  if data.length < 3 then .error .InvalidAsdu
  else
    match parse_ioa (data.take 3) with
    | .error e => .error e
    | .ok first_ioa =>
      parseObjectsGo elemSize readElem data sequence first_ioa count 0 3

/-- `parse_single_point` (M_SP_NA_1, M_SP_TB_1): SIQ byte, optional
CP56Time2a. -/
def parse_single_point (data : List Nat) (count : Nat)
    (sequence with_time : Bool) : Except Iec104Error (List DataPoint) :=
  parseObjects (if with_time then 1 + 7 else 1)
    (fun data offset =>
      let siq := data.getD offset 0
      let value := siq &&& 0x01 != 0
      let quality := Quality.from_siq siq
      if with_time then
        match Cp56Time2a.from_bytes ((data.drop (offset + 1)).take 7) with
        | .error e => .error e
        | .ok ts => .ok (.Single value, quality, some ts)
      else .ok (.Single value, quality, none))
    data count sequence

/-- `parse_single_point_time24` (M_SP_TA_1): SIQ plus a skipped 3-byte
CP24Time2a; no timestamp surfaced. -/
def parse_single_point_time24 (data : List Nat) (count : Nat)
    (sequence : Bool) : Except Iec104Error (List DataPoint) :=
  parseObjects 4
    (fun data offset =>
      let siq := data.getD offset 0
      let value := siq &&& 0x01 != 0
      let quality := Quality.from_siq siq
      .ok (.Single value, quality, none))
    data count sequence

/-- `diq & 0x03` decoded as a `DoublePointValue`. -/
def doublePointValue_of_diq (diq : Nat) : DoublePointValue :=
  match diq &&& 0x03 with
  | 0 => .Indeterminate
  | 1 => .Off
  | 2 => .On
  | _ => .IndeterminateOrFaulty

/-- `parse_double_point` (M_DP_NA_1, M_DP_TB_1). -/
def parse_double_point (data : List Nat) (count : Nat)
    (sequence with_time : Bool) : Except Iec104Error (List DataPoint) :=
  parseObjects (if with_time then 1 + 7 else 1)
    (fun data offset =>
      let diq := data.getD offset 0
      let value := doublePointValue_of_diq diq
      let quality := Quality.from_diq diq
      if with_time then
        match Cp56Time2a.from_bytes ((data.drop (offset + 1)).take 7) with
        | .error e => .error e
        | .ok ts => .ok (.Double value, quality, some ts)
      else .ok (.Double value, quality, none))
    data count sequence

/-- `parse_double_point_time24` (M_DP_TA_1): DIQ plus a skipped 3-byte
CP24Time2a. -/
def parse_double_point_time24 (data : List Nat) (count : Nat)
    (sequence : Bool) : Except Iec104Error (List DataPoint) :=
  parseObjects 4
    (fun data offset =>
      let diq := data.getD offset 0
      let value := doublePointValue_of_diq diq
      let quality := Quality.from_diq diq
      .ok (.Double value, quality, none))
    data count sequence

/-- `parse_step_position` (M_ST_NA_1): VTI byte (`(vti & 0x7F) - 64` as `i8`)
and QDS byte. -/
def parse_step_position (data : List Nat) (count : Nat)
    (sequence _with_time : Bool) : Except Iec104Error (List DataPoint) :=
  parseObjects 2
    (fun data offset =>
      let vti := data.getD offset 0
      let value : Int := ((vti &&& 0x7F : Nat) : Int) - 64
      let qds := data.getD (offset + 1) 0
      .ok (.StepPosition value, Quality.from_qds qds, none))
    data count sequence

/-- `parse_bitstring` (M_BO_NA_1): 4-byte BSI and QDS byte. -/
def parse_bitstring (data : List Nat) (count : Nat)
    (sequence _with_time : Bool) : Except Iec104Error (List DataPoint) :=
  parseObjects 5
    (fun data offset =>
      let value := u32_from_le (data.getD offset 0) (data.getD (offset + 1) 0)
        (data.getD (offset + 2) 0) (data.getD (offset + 3) 0)
      let qds := data.getD (offset + 4) 0
      .ok (.Bitstring value, Quality.from_qds qds, none))
    data count sequence

/-- `parse_measured_normalized` (M_ME_NA_1; also dispatched for
M_ME_TA_1): 2-byte NVA and QDS byte, element size 3, never a timestamp. -/
def parse_measured_normalized (data : List Nat) (count : Nat)
    (sequence _with_time : Bool) : Except Iec104Error (List DataPoint) :=
  parseObjects 3
    (fun data offset =>
      let raw := i16_from_le (data.getD offset 0) (data.getD (offset + 1) 0)
      let qds := data.getD (offset + 2) 0
      .ok (.Normalized raw, Quality.from_qds qds, none))
    data count sequence

/-- `parse_measured_scaled` (M_ME_NB_1; also dispatched for M_ME_TB_1):
2-byte SVA and QDS byte, element size 3, never a timestamp. -/
def parse_measured_scaled (data : List Nat) (count : Nat)
    (sequence _with_time : Bool) : Except Iec104Error (List DataPoint) :=
  parseObjects 3
    (fun data offset =>
      let value := i16_from_le (data.getD offset 0) (data.getD (offset + 1) 0)
      let qds := data.getD (offset + 2) 0
      .ok (.Scaled value, Quality.from_qds qds, none))
    data count sequence

/-- `parse_measured_float` (M_ME_NC_1, M_ME_TF_1; also dispatched with
`with_time = false` for M_ME_TC_1): 4-byte IEEE-754 word, QDS byte, optional
CP56Time2a. -/
def parse_measured_float (data : List Nat) (count : Nat)
    (sequence with_time : Bool) : Except Iec104Error (List DataPoint) :=
  parseObjects (if with_time then 5 + 7 else 5)
    (fun data offset =>
      let bits := u32_from_le (data.getD offset 0) (data.getD (offset + 1) 0)
        (data.getD (offset + 2) 0) (data.getD (offset + 3) 0)
      let qds := data.getD (offset + 4) 0
      let quality := Quality.from_qds qds
      if with_time then
        match Cp56Time2a.from_bytes ((data.drop (offset + 5)).take 7) with
        | .error e => .error e
        | .ok ts => .ok (.Float bits, quality, some ts)
      else .ok (.Float bits, quality, none))
    data count sequence

/-- `parse_integrated_totals` (M_IT_NA_1): 4-byte BCR value and a flags
byte. -/
def parse_integrated_totals (data : List Nat) (count : Nat)
    (sequence _with_time : Bool) : Except Iec104Error (List DataPoint) :=
  parseObjects 5
    (fun data offset =>
      let value := i32_from_le (data.getD offset 0) (data.getD (offset + 1) 0)
        (data.getD (offset + 2) 0) (data.getD (offset + 3) 0)
      let flags := data.getD (offset + 4) 0
      let seq_number := flags &&& 0x1F
      let carry := flags &&& 0x20 != 0
      let adjusted := flags &&& 0x40 != 0
      let invalid := flags &&& 0x80 != 0
      .ok (.BinaryCounter value seq_number carry adjusted invalid,
        Quality.with_invalid invalid, none))
    data count sequence

/-- `parse_asdu`: dispatch on the type identifier.  The final catch-all arm
covers exactly the command and system types that the source enumerates and
maps to `Ok(Vec::new())`. -/
def parse_asdu (asdu : Asdu) : Except Iec104Error (List DataPoint) :=
  let data := asdu.raw_data
  let count := asdu.header.vsq.count
  let sequence := asdu.header.vsq.sequence
  if data.isEmpty ∧ count > 0 then .error .InvalidAsdu
  else
    match asdu.header.type_id with
    | .SinglePoint => parse_single_point data count sequence false
    | .SinglePointTime56 => parse_single_point data count sequence true
    | .DoublePoint => parse_double_point data count sequence false
    | .DoublePointTime56 => parse_double_point data count sequence true
    | .StepPosition => parse_step_position data count sequence false
    | .Bitstring32 => parse_bitstring data count sequence false
    | .MeasuredNormalized => parse_measured_normalized data count sequence false
    | .MeasuredNormalizedTime24 =>
      parse_measured_normalized data count sequence false
    | .MeasuredScaled => parse_measured_scaled data count sequence false
    | .MeasuredScaledTime24 => parse_measured_scaled data count sequence false
    | .MeasuredFloat => parse_measured_float data count sequence false
    | .MeasuredFloatTime24 => parse_measured_float data count sequence false
    | .MeasuredFloatTime56 => parse_measured_float data count sequence true
    | .IntegratedTotals => parse_integrated_totals data count sequence false
    | .SinglePointTime24 => parse_single_point_time24 data count sequence
    | .DoublePointTime24 => parse_double_point_time24 data count sequence
    | _ => .ok []

/-! ### Parser loop lemmas -/

/-- In sequenced addressing the object loop yields one data point per object
with consecutive IOAs `first_ioa + i, first_ioa + i + 1, …`. -/
theorem parseObjectsGo_seq_ioas (es : Nat)
    (re : List Nat → Nat → Except Iec104Error ElemResult)
    (data : List Nat) (fi : Nat) :
    ∀ remaining i offset pts,
      parseObjectsGo es re data true fi remaining i offset = .ok pts →
      pts.map DataPoint.ioa = List.range' (fi + i) remaining ∧
      pts.length = remaining := by
  intro remaining
  induction remaining with
  | zero =>
    intro i offset pts h
    simp only [parseObjectsGo] at h
    cases h
    exact ⟨rfl, rfl⟩
  | succ n ih =>
    intro i offset pts h
    simp only [parseObjectsGo] at h
    rw [if_pos trivial] at h
    dsimp only at h
    split at h
    · exact absurd h (by simp)
    · rcases hre : re data offset with e | ⟨v, q, ts⟩ <;> rw [hre] at h
      · exact absurd h (by simp)
      · rcases hgo : parseObjectsGo es re data true fi n (i + 1) (offset + es)
          with e | pts' <;> rw [hgo] at h
        · exact absurd h (by simp)
        · cases h
          have hih := ih (i + 1) (offset + es) pts' hgo
          refine ⟨?_, by simpa using hih.2⟩
          rw [List.range'_succ, List.map_cons]
          exact congrArg (List.cons (fi + i)) hih.1

/-- `parseObjects` in sequenced addressing: the resulting IOAs are exactly
`b, b + 1, …, b + count − 1` where `b` is the base IOA read from the first
three payload bytes. -/
theorem parseObjects_seq_ioas (es : Nat)
    (re : List Nat → Nat → Except Iec104Error ElemResult)
    (data : List Nat) (count : Nat) (pts : List DataPoint) (b : Nat)
    (h : parseObjects es re data count true = .ok pts)
    (hb : parse_ioa (data.take 3) = .ok b) :
    pts.map DataPoint.ioa = List.range' b count ∧ pts.length = count := by
  simp only [parseObjects] at h
  split at h
  · exact absurd h (by simp)
  · rw [hb] at h
    have hgo := parseObjectsGo_seq_ioas es re data b count 0 3 pts h
    simpa using hgo

/-- If the element reader never produces a timestamp, neither does the
object loop. -/
theorem parseObjectsGo_timestamp_none (es : Nat)
    (re : List Nat → Nat → Except Iec104Error ElemResult)
    (data : List Nat) (sequence : Bool) (fi : Nat)
    (hre : ∀ d o r, re d o = .ok r → r.2.2 = none) :
    ∀ remaining i offset pts,
      parseObjectsGo es re data sequence fi remaining i offset = .ok pts →
      ∀ p ∈ pts, p.timestamp = none := by
  intro remaining
  induction remaining with
  | zero =>
    intro i offset pts h
    simp only [parseObjectsGo] at h
    cases h
    intro p hp
    exact absurd hp (by simp)
  | succ n ih =>
    intro i offset pts h
    simp only [parseObjectsGo] at h
    rcases hio : (if sequence then Except.ok (fi + i, offset)
        else if i > 0 then
          if offset + 3 > data.length then
            Except.error (ε := Iec104Error) .InvalidAsdu
          else
            match parse_ioa ((data.drop offset).take 3) with
            | .error e => .error e
            | .ok ioa => .ok (ioa, offset + 3)
        else .ok (fi, offset)) with e | ⟨ioa, o₁⟩ <;> rw [hio] at h
    · exact absurd h (by simp)
    · dsimp only at h
      split at h
      · exact absurd h (by simp)
      · rcases hre1 : re data o₁ with e | ⟨v, q, ts⟩ <;> rw [hre1] at h
        · exact absurd h (by simp)
        · rcases hgo : parseObjectsGo es re data sequence fi n (i + 1)
              (o₁ + es) with e | pts' <;> rw [hgo] at h
          · exact absurd h (by simp)
          · cases h
            intro p hp
            rcases List.mem_cons.mp hp with hp | hp
            · subst hp
              have := hre data o₁ (v, q, ts) hre1
              simpa using this
            · exact ih (i + 1) (o₁ + es) pts' hgo p hp

/-- `parseObjects` with a timestamp-free element reader yields only
timestamp-free points. -/
theorem parseObjects_timestamp_none (es : Nat)
    (re : List Nat → Nat → Except Iec104Error ElemResult)
    (data : List Nat) (count : Nat) (sequence : Bool)
    (pts : List DataPoint)
    (hre : ∀ d o r, re d o = .ok r → r.2.2 = none)
    (h : parseObjects es re data count sequence = .ok pts) :
    ∀ p ∈ pts, p.timestamp = none := by
  simp only [parseObjects] at h
  split at h
  · exact absurd h (by simp)
  · rcases hioa : parse_ioa (data.take 3) with e | fi <;> rw [hioa] at h
    · exact absurd h (by simp)
    · exact parseObjectsGo_timestamp_none es re data sequence fi hre
        count 0 3 pts h

/-! ## APDU and stream codec (`src/codec.rs`) -/

/-- `Apdu`: APCI plus the optional ASDU carried by I-frames. -/
structure Apdu where
  apci : Apci
  asdu : Option Asdu
deriving DecidableEq, Repr

/-- `Apdu::i_frame`. -/
def Apdu.i_frame (send_seq recv_seq : Nat) (asdu : Asdu) : Apdu :=
  ⟨.IFrame send_seq recv_seq, some asdu⟩

/-- `Apdu::s_frame`. -/
def Apdu.s_frame (recv_seq : Nat) : Apdu := ⟨.SFrame recv_seq, none⟩

/-- `Apdu::u_frame`. -/
def Apdu.u_frame (function : UFunction) : Apdu := ⟨.UFrame function, none⟩

/-- `Iec104Codec::encode`: length check, 6-byte header, then the ASDU
bytes. -/
def Iec104Codec.encode (item : Apdu) : Except Iec104Error (List Nat) :=
  let asdu_len := match item.asdu with
    | some a => a.encoded_len
    | none => 0
  if asdu_len > MAX_APDU_LENGTH - 4 then .error .Codec
  else
    .ok (item.apci.encode_header asdu_len ++
      (match item.asdu with
       | some a => a.encode_to
       | none => []))

/-- `DecodeState`: the three decoder states of `Iec104Codec`. -/
inductive DecodeState where
  | WaitingForStart
  | WaitingForLength
  | WaitingForData (length : Nat)
deriving DecidableEq, Repr

/-- The outcome of one `decode` call: a complete frame, a request for more
bytes (`Ok(None)`), or a decode error (`Err(e)`). -/
inductive DecOut where
  | frame (apdu : Apdu)
  | needMore
  | err (e : Iec104Error)
deriving DecidableEq, Repr

/-- The state-machine loop of `Iec104Codec::decode`, invoked from a given
state on the buffered bytes.  Each case mirrors one `match` arm of the Rust
`loop`; the explicit fuel argument bounds the number of loop iterations
(`2 * src.length + 3` always suffices, `decodeCallF_stable` below), making
the function structurally recursive and computable.  Returns the decode
outcome together with the decoder state and the bytes left in the buffer. -/
def decodeCallF : Nat → DecodeState → List Nat →
    DecOut × DecodeState × List Nat
  | 0, state, src => (.needMore, state, src)
  | fuel + 1, .WaitingForStart, src =>
    match src with
    | [] => (.needMore, .WaitingForStart, [])
    | b :: _ =>
      if b ≠ START_BYTE then
        match src.findIdx? (fun x => x == START_BYTE) with
        | some pos => decodeCallF fuel .WaitingForLength (src.drop pos)
        | none => (.needMore, .WaitingForStart, [])
      else decodeCallF fuel .WaitingForLength src
  | fuel + 1, .WaitingForLength, src =>
    if src.length < 2 then (.needMore, .WaitingForLength, src)
    else
      let length := src.getD 1 0
      if length < MIN_APDU_LENGTH then
        decodeCallF fuel .WaitingForStart (src.drop 1)
      else if length > MAX_APDU_LENGTH then
        decodeCallF fuel .WaitingForStart (src.drop 1)
      else decodeCallF fuel (.WaitingForData length) src
  | _fuel + 1, .WaitingForData length, src =>
    let total_length := 2 + length
    if src.length < total_length then
      (.needMore, .WaitingForData length, src)
    else
      let frame := src.take total_length
      let rest := src.drop total_length
      match Apci.parse ((frame.drop 2).take 4) with
      | .error e => (.err e, .WaitingForStart, rest)
      | .ok apci =>
        if apci.is_i_frame ∧ frame.length > 6 then
          match Asdu.parse_bytes (frame.drop 6) with
          | .error e => (.err e, .WaitingForStart, rest)
          | .ok asdu => (.frame ⟨apci, some asdu⟩, .WaitingForStart, rest)
        else (.frame ⟨apci, none⟩, .WaitingForStart, rest)

/-- One call of `Iec104Codec::decode` on a fresh decoder holding `src`. -/
def Iec104Codec.decode (src : List Nat) : DecOut × DecodeState × List Nat :=
  decodeCallF (2 * src.length + 3) .WaitingForStart src

/-- Fuel bound needed by `decodeCallF` from a given state. -/
def decodeFuelBound : DecodeState → List Nat → Nat
  | .WaitingForStart, src => 2 * src.length + 3
  | .WaitingForLength, src => 2 * src.length + 2
  | .WaitingForData _, src => 2 * src.length + 1

/-- `decodeCallF` is fuel-irrelevant above the bound: any two sufficient fuel
values give the same result. -/
theorem decodeCallF_stable :
    ∀ f₁ f₂ st src, decodeFuelBound st src ≤ f₁ →
      decodeFuelBound st src ≤ f₂ →
      decodeCallF f₁ st src = decodeCallF f₂ st src := by
  intro f₁
  induction f₁ using Nat.strong_induction_on with
  | _ f₁ ih =>
    intro f₂ st src h₁ h₂
    match st with
    | .WaitingForStart =>
      simp only [decodeFuelBound] at h₁ h₂
      obtain ⟨g₁, rfl⟩ : ∃ g, f₁ = g + 1 := ⟨f₁ - 1, by omega⟩
      obtain ⟨g₂, rfl⟩ : ∃ g, f₂ = g + 1 := ⟨f₂ - 1, by omega⟩
      match src with
      | [] => rfl
      | b :: tl =>
        simp only [List.length_cons] at h₁ h₂
        simp only [decodeCallF]
        split
        · split
          · next pos _ =>
            apply ih g₁ (by omega) g₂
            all_goals
              simp only [decodeFuelBound, List.length_drop, List.length_cons]
              omega
          · rfl
        · apply ih g₁ (by omega) g₂
          all_goals
            simp only [decodeFuelBound, List.length_cons]
            omega
    | .WaitingForLength =>
      simp only [decodeFuelBound] at h₁ h₂
      obtain ⟨g₁, rfl⟩ : ∃ g, f₁ = g + 1 := ⟨f₁ - 1, by omega⟩
      obtain ⟨g₂, rfl⟩ : ∃ g, f₂ = g + 1 := ⟨f₂ - 1, by omega⟩
      simp only [decodeCallF]
      split
      · rfl
      · next hlen =>
        split
        · apply ih g₁ (by omega) g₂
          all_goals
            simp only [decodeFuelBound, List.length_drop]
            omega
        · split
          · apply ih g₁ (by omega) g₂
            all_goals
              simp only [decodeFuelBound, List.length_drop]
              omega
          · apply ih g₁ (by omega) g₂
            all_goals
              simp only [decodeFuelBound]
              omega
    | .WaitingForData length =>
      simp only [decodeFuelBound] at h₁ h₂
      obtain ⟨g₁, rfl⟩ : ∃ g, f₁ = g + 1 := ⟨f₁ - 1, by omega⟩
      obtain ⟨g₂, rfl⟩ : ∃ g, f₂ = g + 1 := ⟨f₂ - 1, by omega⟩
      rfl

/-- A `decode` call that emits a frame consumes at least one byte. -/
theorem decodeCallF_frame_shrinks :
    ∀ f st src a st' rest,
      decodeCallF f st src = (.frame a, st', rest) →
      rest.length < src.length := by
  intro f
  induction f with
  | zero => intro st src a st' rest h; exact absurd h (by simp [decodeCallF])
  | succ f ih =>
    intro st src a st' rest h
    match st with
    | .WaitingForStart =>
      match src with
      | [] => exact absurd h (by simp [decodeCallF])
      | b :: tl =>
        simp only [decodeCallF] at h
        split at h
        · split at h
          · next pos _ =>
            have h1 := ih _ _ _ _ _ h
            have h2 : ((b :: tl).drop pos).length ≤ (b :: tl).length := by
              simp [List.length_drop]
            omega
          · exact absurd h (by simp)
        · exact ih _ _ _ _ _ h
    | .WaitingForLength =>
      simp only [decodeCallF] at h
      split at h
      · exact absurd h (by simp)
      · next hlen =>
        split at h
        · have h1 := ih _ _ _ _ _ h
          have h2 : (src.drop 1).length ≤ src.length := by
            simp [List.length_drop]
          omega
        · split at h
          · have h1 := ih _ _ _ _ _ h
            have h2 : (src.drop 1).length ≤ src.length := by
              simp [List.length_drop]
            omega
          · exact ih _ _ _ _ _ h
    | .WaitingForData length =>
      simp only [decodeCallF] at h
      split at h
      · exact absurd h (by simp)
      · next hlen =>
        split at h
        · exact absurd h (by simp)
        · split at h
          · split at h
            · exact absurd h (by simp)
            · obtain ⟨-, -, rfl⟩ := Prod.mk.injEq .. ▸ h
              simp_all only [not_lt, Prod.mk.injEq]
              simp only [List.length_drop]
              omega
          · obtain ⟨-, -, rfl⟩ := Prod.mk.injEq .. ▸ h
            simp_all only [not_lt, Prod.mk.injEq]
            simp only [List.length_drop]
            omega

/-- Repeatedly invoke `Iec104Codec.decode` on the buffer (as the framed
transport does), each call starting from the reset `WaitingForStart` state —
the codec always resets its state after emitting a frame.  Collects the
decoded APDUs in order; the `Bool` records whether a decode error surfaced.
The fuel argument bounds the number of frames; `src.length + 1` always
suffices because every emitted frame consumes at least one byte
(`decodeCallF_frame_shrinks`). -/
def runDecoderF : Nat → List Nat → List Apdu × Bool
  | 0, _ => ([], false)
  | fuel + 1, src =>
    match Iec104Codec.decode src with
    | (.frame a, _, rest) =>
      let r := runDecoderF fuel rest
      (a :: r.1, r.2)
    | (.needMore, _, _) => ([], false)
    | (.err _, _, _) => ([], true)

/-- Feed a whole byte stream to a fresh decoder and collect every decoded
APDU (and whether an error surfaced). -/
def runDecoder (src : List Nat) : List Apdu × Bool :=
  runDecoderF (src.length + 1) src

/-- `runDecoderF` is fuel-irrelevant above `src.length + 1`. -/
theorem runDecoderF_stable :
    ∀ f₁ f₂ src, src.length + 1 ≤ f₁ → src.length + 1 ≤ f₂ →
      runDecoderF f₁ src = runDecoderF f₂ src := by
  intro f₁
  induction f₁ using Nat.strong_induction_on with
  | _ f₁ ih =>
    intro f₂ src h₁ h₂
    obtain ⟨g₁, rfl⟩ : ∃ g, f₁ = g + 1 := ⟨f₁ - 1, by omega⟩
    obtain ⟨g₂, rfl⟩ : ∃ g, f₂ = g + 1 := ⟨f₂ - 1, by omega⟩
    simp only [runDecoderF]
    rcases hd : Iec104Codec.decode src with ⟨out, st, rest⟩
    match out with
    | .frame a =>
      have hlt : rest.length < src.length :=
        decodeCallF_frame_shrinks _ _ _ _ _ _ hd
      dsimp only
      rw [ih g₁ (by omega) g₂ rest (by omega) (by omega)]
    | .needMore => rfl
    | .err e => rfl

theorem apci_encode_length (a : Apci) : a.encode.length = 4 := by
  cases a <;> rfl

theorem Apci.encode_append_take4 (a : Apci) (rest : List Nat) :
    (a.encode ++ rest).take 4 = a.encode := by
  cases a <;> rfl

theorem Apci.encode_append_drop4 (a : Apci) (rest : List Nat) :
    (a.encode ++ rest).drop 4 = rest := by
  cases a <;> rfl

theorem asdu_header_encode_length (h : AsduHeader) : h.encode.length = 6 :=
  rfl

theorem AsduHeader.encode_append_drop6 (h : AsduHeader) (rest : List Nat) :
    (h.encode ++ rest).drop 6 = rest := rfl

/-- With no parsed objects, `Asdu::encode_to` is the header followed by the
raw payload. -/
theorem Asdu.encode_to_raw_form (a : Asdu) (h : a.objects = []) :
    a.encode_to = a.header.encode ++ a.raw_data := by
  obtain ⟨hd, objs, raw⟩ := a
  subst h
  match raw with
  | [] => rfl
  | b :: tl => rfl

/-- With no parsed objects, `Asdu::encoded_len` is 6 plus the raw payload
length. -/
theorem Asdu.encoded_len_raw_form (a : Asdu) (h : a.objects = []) :
    a.encoded_len = 6 + a.raw_data.length := by
  obtain ⟨hd, objs, raw⟩ := a
  subst h
  rfl

/-- Decoding a buffer holding exactly one well-formed frame: start byte, a
length byte in range, and exactly `lenB` following bytes.  Three loop
iterations reach the frame (any extra fuel is unused). -/
theorem decodeCallF_single_frame (f lenB : Nat) (body : List Nat)
    (h4 : ¬ lenB < MIN_APDU_LENGTH) (h253 : ¬ lenB > MAX_APDU_LENGTH)
    (hlen : body.length = lenB) :
    decodeCallF (f + 3) .WaitingForStart (START_BYTE :: lenB :: body) =
      (match Apci.parse (body.take 4) with
       | .error e => (.err e, .WaitingForStart, [])
       | .ok apci =>
         if apci.is_i_frame ∧ 2 + lenB > 6 then
           match Asdu.parse_bytes (body.drop 4) with
           | .error e => (.err e, .WaitingForStart, [])
           | .ok asdu => (.frame ⟨apci, some asdu⟩, .WaitingForStart, [])
         else (.frame ⟨apci, none⟩, .WaitingForStart, [])) := by
  have hl : (START_BYTE :: lenB :: body).length = 2 + lenB := by
    simp only [List.length_cons, hlen]
    omega
  show decodeCallF ((f + 2) + 1) .WaitingForStart
    (START_BYTE :: lenB :: body) = _
  simp only [decodeCallF]
  rw [if_neg (fun hcon => hcon rfl)]
  show decodeCallF ((f + 1) + 1) .WaitingForLength
    (START_BYTE :: lenB :: body) = _
  simp only [decodeCallF]
  rw [if_neg (by rw [hl]; omega)]
  have hgd : (START_BYTE :: lenB :: body).getD 1 0 = lenB := rfl
  rw [hgd, if_neg h4, if_neg h253]
  show decodeCallF (f + 1) (.WaitingForData lenB)
    (START_BYTE :: lenB :: body) = _
  simp only [decodeCallF]
  rw [if_neg (by rw [hl]; omega)]
  have htake : (START_BYTE :: lenB :: body).take (2 + lenB) =
      START_BYTE :: lenB :: body := by
    rw [← hl]
    exact List.take_length _
  have hdrop : (START_BYTE :: lenB :: body).drop (2 + lenB) = [] := by
    rw [← hl]
    exact List.drop_length _
  rw [htake, hdrop]
  have hdrop2 : (START_BYTE :: lenB :: body).drop 2 = body := rfl
  rw [hdrop2, hl]
  have hdrop6 : (START_BYTE :: lenB :: body).drop 6 = body.drop 4 := rfl
  rw [hdrop6]

/-- The `WaitingForStart` arm of the decode loop in one equation: scan for
the first `0x68`, drop everything before it, and continue in
`WaitingForLength`; if there is none, drop the whole buffer. -/
theorem decodeCallF_start_eq (f : Nat) (l : List Nat) :
    decodeCallF (f + 1) .WaitingForStart l =
      (match l.findIdx? (fun x => x == START_BYTE) with
       | some pos => decodeCallF f .WaitingForLength (l.drop pos)
       | none => (.needMore, .WaitingForStart, [])) := by
  match l with
  | [] => rfl
  | b :: tl =>
    by_cases hb : b = START_BYTE
    · subst hb
      rw [List.findIdx?_cons]
      simp only [decodeCallF, ne_eq, not_true_eq_false, if_false,
        beq_self_eq_true, if_true, List.drop_zero]
    · rw [List.findIdx?_cons]
      have hbeq : (b == START_BYTE) = false := by
        simp [hb]
      simp only [decodeCallF, ne_eq, hb, not_false_eq_true, if_true, hbeq,
        Bool.false_eq_true, if_false]
      rw [List.findIdx?_cons, hbeq]
      simp only [Bool.false_eq_true, if_false]

/-- Leading non-`0x68` bytes are transparent to a decode call made from the
scanning state. -/
theorem decodeCallF_skip_garbage (g s : List Nat)
    (hg : ∀ b ∈ g, b ≠ START_BYTE) (f : Nat) :
    decodeCallF (f + 1) .WaitingForStart (g ++ s) =
      decodeCallF (f + 1) .WaitingForStart s := by
  rw [decodeCallF_start_eq, decodeCallF_start_eq]
  have hgnone : g.findIdx? (fun x => x == START_BYTE) = none := by
    rw [List.findIdx?_eq_none_iff]
    intro x hx
    simp [hg x hx]
  rw [List.findIdx?_append, hgnone, Option.none_or]
  rcases hs : s.findIdx? (fun x => x == START_BYTE) with _ | pos
  · rfl
  · dsimp only [Option.map]
    rw [Nat.add_comm pos g.length, List.drop_append]

/-- A fresh decode of `g ++ s` with non-`0x68` garbage `g` equals a fresh
decode of `s`. -/
theorem decode_skip_garbage (g s : List Nat)
    (hg : ∀ b ∈ g, b ≠ START_BYTE) :
    Iec104Codec.decode (g ++ s) = Iec104Codec.decode s := by
  show decodeCallF (2 * (g ++ s).length + 3) .WaitingForStart (g ++ s) =
    decodeCallF (2 * s.length + 3) .WaitingForStart s
  rw [show 2 * (g ++ s).length + 3 = (2 * (g ++ s).length + 2) + 1 from rfl,
    decodeCallF_skip_garbage g s hg]
  exact decodeCallF_stable _ _ .WaitingForStart s
    (by simp only [decodeFuelBound, List.length_append]; omega)
    (by simp only [decodeFuelBound]; omega)

/-! ## Client / link state machine (`src/client.rs`)

The protocol-relevant state of `Iec104Client` (connection state, the two
sequence counters and the two unconfirmed counters, plus the `k`/`w`
configuration values) is modelled explicitly; socket handles, timers and the
event channel are not part of the claims under study.  Frames written to the
socket are returned as an explicit output list. -/

/-- `DEFAULT_K`. -/
def DEFAULT_K : Nat := 12

/-- `DEFAULT_W`. -/
def DEFAULT_W : Nat := 8

/-- `ConnectionState`. -/
inductive ConnectionState where
  | Disconnected
  | Connected
  | Active
  | Stopping
deriving DecidableEq, Repr

/-- `Iec104Event` (the message string of `Error` is dropped). -/
inductive Iec104Event where
  | Connected
  | Disconnected
  | DataTransferStarted
  | DataTransferStopped
  | DataUpdate (points : List DataPoint)
  | AsduReceived (asdu : Asdu)
  | CommandConfirm (ioa : Nat) (success : Bool)
  | InterrogationComplete (common_address : Nat)
  | Error
deriving DecidableEq, Repr

/-- The protocol fields of `Iec104Client` (`state`, `send_seq`, `recv_seq`,
`unconfirmed_sends`, `unconfirmed_recvs`) together with the configured
window parameters `config.k` and `config.w`.  All counters are `u16` in the
source. -/
structure ClientState where
  state : ConnectionState
  send_seq : Nat
  recv_seq : Nat
  unconfirmed_sends : Nat
  unconfirmed_recvs : Nat
  k : Nat
  w : Nat
deriving DecidableEq, Repr

/-- Wrapping 16-bit subtraction: the release-mode semantics of a Rust `u16`
subtraction (`a.wrapping_sub(b)`); expects `b < 65536`.  In debug builds the
same subtraction panics on underflow instead of wrapping. -/
def wsub16 (a b : Nat) : Nat := (a + 65536 - b) % 65536

/-- `Iec104Client::acknowledge_up_to` under release-mode (wrapping) `u16`
arithmetic.  `recv_seq - (send_seq - unconfirmed_sends)` and
`(32768 - (send_seq - unconfirmed_sends)) + recv_seq` are `u16`
expressions: each subtraction wraps at 2^16 (or panics in a debug build)
when its right operand exceeds its left, and the final sum wraps at 2^16. -/
def acknowledge_up_to (s : ClientState) (recv_seq : Nat) : ClientState :=
  let oldest := wsub16 s.send_seq s.unconfirmed_sends
  let acked :=
    if recv_seq ≥ oldest then wsub16 recv_seq oldest
    else (wsub16 32768 oldest + recv_seq) % 65536
  if acked ≤ s.unconfirmed_sends then
    { s with unconfirmed_sends := s.unconfirmed_sends - acked }
  else s

/-- `Iec104Client::send_s_frame`: writes an S-frame carrying the current
`recv_seq` and clears `unconfirmed_recvs`. -/
def send_s_frame (s : ClientState) : ClientState × List Apdu :=
  ({ s with unconfirmed_recvs := 0 }, [Apdu.s_frame s.recv_seq])

/-- `Iec104Client::send_i_frame`: refuse when `unconfirmed_sends >= k`,
otherwise write the I-frame and advance the window counters. -/
def send_i_frame (s : ClientState) (asdu : Asdu) :
    Except Iec104Error Unit × ClientState × List Apdu :=
  if s.unconfirmed_sends ≥ s.k then
    (.error (.TooManyUnconfirmed s.k), s, [])
  else
    (.ok (),
     { s with send_seq := (s.send_seq + 1) % 32768,
              unconfirmed_sends := s.unconfirmed_sends + 1,
              unconfirmed_recvs := 0 },
     [Apdu.i_frame s.send_seq s.recv_seq asdu])

/-- `Iec104Client::process_asdu`. -/
def process_asdu (asdu : Asdu) : Iec104Event :=
  let fallback :=
    if asdu.header.negative then .Error
    else
      match parse_asdu asdu with
      | .ok points => if points ≠ [] then .DataUpdate points
                      else .AsduReceived asdu
      | .error _ => .Error
  match asdu.header.cot with
  | .ActivationConfirm | .DeactivationConfirm =>
    if asdu.raw_data ≠ [] ∧ asdu.raw_data.length ≥ 3 then
      .CommandConfirm
        ((asdu.raw_data.getD 0 0) ||| ((asdu.raw_data.getD 1 0) <<< 8) |||
          ((asdu.raw_data.getD 2 0) <<< 16))
        (!asdu.header.negative)
    else fallback
  | .ActivationTermination =>
    if asdu.header.type_id = .InterrogationCommand then
      .InterrogationComplete asdu.header.common_address
    else fallback
  | _ => fallback

/-- `Iec104Client::handle_apdu`: the received-frame handler.  Returns the
`Result` value of the Rust function, the client state after the call, and
the frames written to the socket during the call. -/
def handle_apdu (s : ClientState) (apdu : Apdu) :
    Except Iec104Error (Option Iec104Event) × ClientState × List Apdu :=
  match apdu.apci with
  | .IFrame send_seq recv_seq =>
    let s₁ := acknowledge_up_to s recv_seq
    if send_seq ≠ s₁.recv_seq then
      (.error (.SequenceMismatch s₁.recv_seq send_seq), s₁, [])
    else
      let s₂ := { s₁ with recv_seq := (s₁.recv_seq + 1) % 32768,
                          unconfirmed_recvs := s₁.unconfirmed_recvs + 1 }
      let step :=
        if s₂.unconfirmed_recvs ≥ s₂.w then send_s_frame s₂ else (s₂, [])
      match apdu.asdu with
      | some asdu => (.ok (some (process_asdu asdu)), step.1, step.2)
      | none => (.ok none, step.1, step.2)
  | .SFrame recv_seq => (.ok none, acknowledge_up_to s recv_seq, [])
  | .UFrame function =>
    match function with
    | .TestFrAct => (.ok none, s, [Apdu.u_frame .TestFrCon])
    | _ => (.ok none, s, [])

/-- `Iec104Client::general_interrogation`: gated on the `Active` state, then
sends the QOI-20 interrogation command as an I-frame. -/
def general_interrogation (s : ClientState) (common_address : Nat) :
    Except Iec104Error Unit × ClientState × List Apdu :=
  if s.state ≠ .Active then (.error .NotConnected, s, [])
  else send_i_frame s (Asdu.interrogation_command common_address 20)

/-- The ack arithmetic prescribed by the spec, following its words: with
`oldest = (send_seq + 32768 − unacked_out) mod 32768` strictly in modular
arithmetic, the number of frames acknowledged by `rs` is
`(rs − oldest) mod 32768`; `none` means the count exceeds `unacked_out`
and the link must be closed, otherwise the new `unacked_out` is returned. -/
def ackMathSpec (send_seq unacked_out rs : Nat) : Option Nat :=
  let oldest := (send_seq + 32768 - unacked_out) % 32768
  let acked := (rs + 32768 - oldest) % 32768
  if acked ≤ unacked_out then some (unacked_out - acked) else none

/-! ### Field-preservation facts about `acknowledge_up_to`

`acknowledge_up_to` touches only `unconfirmed_sends`. -/

theorem acknowledge_up_to_state (s : ClientState) (r : Nat) :
    (acknowledge_up_to s r).state = s.state := by
  simp only [acknowledge_up_to]
  split <;> split <;> rfl

theorem acknowledge_up_to_recv_seq (s : ClientState) (r : Nat) :
    (acknowledge_up_to s r).recv_seq = s.recv_seq := by
  simp only [acknowledge_up_to]
  split <;> split <;> rfl

theorem acknowledge_up_to_unconfirmed_recvs (s : ClientState) (r : Nat) :
    (acknowledge_up_to s r).unconfirmed_recvs = s.unconfirmed_recvs := by
  simp only [acknowledge_up_to]
  split <;> split <;> rfl

theorem acknowledge_up_to_w (s : ClientState) (r : Nat) :
    (acknowledge_up_to s r).w = s.w := by
  simp only [acknowledge_up_to]
  split <;> split <;> rfl

/-! ## Claim theorems -/

/-- C2: the claim (and the spec's ack math) demand that on a wrap-around
state with `unacked_out > send_seq` the newly acknowledged count is
`(rs − oldest) mod 32768` with `oldest = (send_seq − unacked_out) mod 32768`,
and that an over-acknowledgement closes the link.  The code computes the
count with `u16` subtractions that wrap at 2^16, not 2^15: at the reachable
state `send_seq = 0`, `unconfirmed_sends = 1` (one I-frame in flight sent at
sequence 32767) an incoming `rs = 0` acknowledges that frame — the spec
count is 1, leaving 0 unacknowledged — but the code computes 32769 and
leaves `unconfirmed_sends` at 1; and at `send_seq = 5`,
`unconfirmed_sends = 2`, an `rs = 0` acknowledging unsent frames must close
the link per the claim, while the code silently leaves the state unchanged
and no close happens on any `acknowledge_up_to` path. -/
theorem c2_ack_math_divergence :
    (acknowledge_up_to ⟨.Active, 0, 0, 1, 0, 12, 8⟩ 0).unconfirmed_sends
      = 1 ∧
    ackMathSpec 0 1 0 = some 0 ∧
    acknowledge_up_to ⟨.Active, 5, 0, 2, 0, 12, 8⟩ 0
      = ⟨.Active, 5, 0, 2, 0, 12, 8⟩ ∧
    ackMathSpec 5 2 0 = none := by
  decide

/-- C3 (counterexample): on a sequence-number mismatch (expected 0, received
send sequence 1) `handle_apdu` returns the `SequenceMismatch` error to its
caller, but the connection state stays `Active` — it does not transition to
`Disconnected` — and no frame or event is produced; the claim asserts the
link is closed with an Error event. -/
theorem c3_counterexample :
    (handle_apdu ⟨.Active, 0, 0, 0, 0, 12, 8⟩ ⟨.IFrame 1 0, none⟩).1
      = .error (.SequenceMismatch 0 1) ∧
    (handle_apdu ⟨.Active, 0, 0, 0, 0, 12, 8⟩ ⟨.IFrame 1 0, none⟩).2.1.state
      = .Active ∧
    (handle_apdu ⟨.Active, 0, 0, 0, 0, 12, 8⟩ ⟨.IFrame 1 0, none⟩).2.2
      = [] := by
  decide

/-- C3 (amended): whenever an I-frame arrives whose send sequence `ss`
differs from the expected receive sequence, the client records the mismatch
by returning `Err(SequenceMismatch)` from `handle_apdu` (and hence from
`poll`); the acknowledgement carried in `rs` is still applied, nothing is
written to the socket, no event reaches the consumer, and the connection
state field is left unchanged — in particular it is not set to
`Disconnected`. -/
theorem c3_sequence_mismatch_behaviour (s : ClientState) (ss rs : Nat)
    (a? : Option Asdu) (h : ss ≠ s.recv_seq) :
    handle_apdu s ⟨.IFrame ss rs, a?⟩ =
      (.error (.SequenceMismatch s.recv_seq ss), acknowledge_up_to s rs,
        []) ∧
    (acknowledge_up_to s rs).state = s.state := by
  refine ⟨?_, acknowledge_up_to_state s rs⟩
  simp only [handle_apdu, acknowledge_up_to_recv_seq]
  rw [if_pos h]

theorem c3_sequence_mismatch_behaviour_witness :
    (1 ≠ (0 : Nat)) ∧
    handle_apdu ⟨.Active, 0, 0, 0, 3, 12, 8⟩ ⟨.IFrame 1 7, none⟩ =
      (.error (.SequenceMismatch 0 1),
        acknowledge_up_to ⟨.Active, 0, 0, 0, 3, 12, 8⟩ 7, []) :=
  ⟨by decide,
   (c3_sequence_mismatch_behaviour ⟨.Active, 0, 0, 0, 3, 12, 8⟩ 1 7 none
     (by decide)).1⟩

/-- C4: on an in-sequence I-frame (`ss` equals the expected receive
sequence) the handler sets the expected receive sequence to
`(ss + 1) mod 32768` and increments `unconfirmed_recvs`; when the counter
reaches the configured `w` it writes exactly one S-frame carrying the
updated expected receive sequence and resets the counter to 0, so that the
counter never exceeds `w` after the handler returns. -/
theorem c4_receive_window (s : ClientState) (ss rs : Nat)
    (a? : Option Asdu) (hss : ss = s.recv_seq) :
    (handle_apdu s ⟨.IFrame ss rs, a?⟩).2.1.recv_seq = (ss + 1) % 32768 ∧
    (if s.unconfirmed_recvs + 1 ≥ s.w then
      (handle_apdu s ⟨.IFrame ss rs, a?⟩).2.1.unconfirmed_recvs = 0 ∧
      (handle_apdu s ⟨.IFrame ss rs, a?⟩).2.2 =
        [Apdu.s_frame ((ss + 1) % 32768)]
     else
      (handle_apdu s ⟨.IFrame ss rs, a?⟩).2.1.unconfirmed_recvs =
        s.unconfirmed_recvs + 1 ∧
      (handle_apdu s ⟨.IFrame ss rs, a?⟩).2.2 = []) ∧
    (handle_apdu s ⟨.IFrame ss rs, a?⟩).2.1.unconfirmed_recvs ≤ s.w := by
  subst hss
  simp only [handle_apdu, acknowledge_up_to_recv_seq, ne_eq,
    not_true_eq_false, if_false, send_s_frame,
    acknowledge_up_to_unconfirmed_recvs, acknowledge_up_to_w]
  by_cases hw : s.unconfirmed_recvs + 1 ≥ s.w
  · rw [if_pos hw, if_pos hw]
    cases a? <;> simp
  · rw [if_neg hw, if_neg hw]
    cases a? <;> simp <;> omega

theorem c4_receive_window_witness :
    ((5 : Nat) = (⟨.Active, 0, 5, 0, 1, 12, 2⟩ : ClientState).recv_seq) ∧
    (handle_apdu ⟨.Active, 0, 5, 0, 1, 12, 2⟩
      ⟨.IFrame 5 0, none⟩).2.1.recv_seq = (5 + 1) % 32768 :=
  ⟨by decide,
   (c4_receive_window ⟨.Active, 0, 5, 0, 1, 12, 2⟩ 5 0 none rfl).1⟩

/-- C5: with `unconfirmed_sends` at or above the configured `k`,
`send_i_frame` refuses with the caller-visible `TooManyUnconfirmed`
error, writes nothing to the socket, and leaves the client state — the
connection state, `send_seq`, `unconfirmed_sends` and `unconfirmed_recvs` —
entirely unchanged (an Active link stays Active). -/
theorem c5_window_full_refusal (s : ClientState) (asdu : Asdu)
    (h : s.unconfirmed_sends ≥ s.k) :
    send_i_frame s asdu = (.error (.TooManyUnconfirmed s.k), s, []) := by
  simp only [send_i_frame]
  rw [if_pos h]

theorem c5_window_full_refusal_witness :
    ((⟨.Active, 3, 0, 12, 0, 12, 8⟩ : ClientState).unconfirmed_sends ≥
      (⟨.Active, 3, 0, 12, 0, 12, 8⟩ : ClientState).k) ∧
    send_i_frame ⟨.Active, 3, 0, 12, 0, 12, 8⟩
        (Asdu.interrogation_command 1 20) =
      (.error (.TooManyUnconfirmed 12), ⟨.Active, 3, 0, 12, 0, 12, 8⟩, []) :=
  ⟨by decide,
   c5_window_full_refusal ⟨.Active, 3, 0, 12, 0, 12, 8⟩
     (Asdu.interrogation_command 1 20) (by decide)⟩

/-- C8: from the `Active` state with `send_seq = 0` and `recv_seq = 0`,
`general_interrogation(common_address = 1)` succeeds and writes exactly one
I-frame whose codec encoding is the 16-byte wire sequence
`68 0E 00 00 00 00 64 01 06 00 01 00 00 00 00 14`. -/
theorem c8_general_interrogation_bytes :
    (general_interrogation ⟨.Active, 0, 0, 0, 0, 12, 8⟩ 1).1 = .ok () ∧
    (general_interrogation ⟨.Active, 0, 0, 0, 0, 12, 8⟩ 1).2.2.map
        Iec104Codec.encode =
      [.ok [0x68, 0x0E, 0x00, 0x00, 0x00, 0x00, 0x64, 0x01, 0x06, 0x00,
            0x01, 0x00, 0x00, 0x00, 0x00, 0x14]] := by
  decide

/-- C6: prefixing a byte stream with arbitrary non-`0x68` bytes leaves the
decoded APDU sequence (and the absence or presence of a surfaced decode
error) unchanged: the garbage is discarded silently by the scanning
state. -/
theorem c6_garbage_prefix_invariance (g s : List Nat)
    (hg : ∀ b ∈ g, b ≠ 0x68) :
    runDecoder (g ++ s) = runDecoder s := by
  have hdec := decode_skip_garbage g s hg
  show runDecoderF ((g ++ s).length + 1) (g ++ s) =
    runDecoderF (s.length + 1) s
  simp only [runDecoderF]
  rw [hdec]
  rcases hd : Iec104Codec.decode s with ⟨out, st, rest⟩
  match out with
  | .frame a =>
    dsimp only
    have hlt : rest.length < s.length :=
      decodeCallF_frame_shrinks _ _ _ _ _ _ hd
    rw [runDecoderF_stable (g ++ s).length s.length rest
      (by simp only [List.length_append]; omega) (by omega)]
  | .needMore => rfl
  | .err e => rfl

theorem c6_garbage_prefix_invariance_witness :
    (([0xFF, 0xAA, 0xBB, 0xCC] : List Nat).all (fun b => b != 0x68))
      = true ∧
    runDecoder
        ([0xFF, 0xAA, 0xBB, 0xCC] ++ [0x68, 0x04, 0x07, 0x00, 0x00, 0x00]) =
      runDecoder [0x68, 0x04, 0x07, 0x00, 0x00, 0x00] :=
  ⟨by decide,
   c6_garbage_prefix_invariance [0xFF, 0xAA, 0xBB, 0xCC]
     [0x68, 0x04, 0x07, 0x00, 0x00, 0x00] (by decide)⟩

/-- C10: `Cp56Time2a::to_bytes` produces exactly 7 bytes, and
`Cp56Time2a::from_bytes` recovers the original value for every field
assignment that fits the encoded bit widths (milliseconds 16 bits, minutes
6, hours 5, day 5, day-of-week 3, month 4, year 7, plus the two flag
bits). -/
theorem c10_cp56_roundtrip (t : Cp56Time2a)
    (hms : t.milliseconds < 65536) (hmin : t.minutes < 64)
    (hh : t.hours < 32) (hd : t.day < 32) (hdw : t.day_of_week < 8)
    (hmo : t.month < 16) (hy : t.year < 128) :
    t.to_bytes.length = 7 ∧ Cp56Time2a.from_bytes t.to_bytes = .ok t := by
  obtain ⟨ms, mi, hr, d, dw, mo, yr, inv, st⟩ := t
  dsimp only at hms hmin hh hd hdw hmo hy
  refine ⟨rfl, ?_⟩
  have hms_rec : (ms &&& 0xFF) ||| (((ms >>> 8) &&& 0xFF) <<< 8) = ms := by
    rw [and_255_eq_mod ms, shiftRight_8_eq_div ms, and_255_eq_mod (ms / 256),
      Nat.mod_eq_of_lt (show ms / 256 < 256 by omega),
      lor_shiftLeft8_eq_add _ _ (Nat.mod_lt _ (by norm_num))]
    omega
  have h2 := cp56_byte2_fields mi hmin inv
  have h3 := cp56_byte3_fields hr hh st
  have h4 := cp56_byte4_fields d hd dw hdw
  have h5 := cp56_byte5_field mo hmo
  have h6 := cp56_byte6_field yr hy
  simp only [Cp56Time2a.to_bytes, Cp56Time2a.from_bytes, List.length_cons,
    List.length_nil, List.getD, List.get?_cons_zero, List.get?_cons_succ,
    Option.getD_some]
  rw [if_neg (by norm_num)]
  rw [hms_rec, h2.1, h2.2, h3.1, h3.2, h4.1, h4.2, h5, h6]

/-- A wire-representable APDU: S- and U-frames carry no ASDU, sequence
numbers fit in 15 bits, and an I-frame's ASDU is in wire form — no parsed
`objects` (the payload lives in `raw_data`, as in every ASDU the decoder
itself produces), a 7-bit VSQ count, byte-sized originator, 16-bit common
address, and a payload that fits the 253-byte APDU limit. -/
abbrev Apdu.wireValid : Apdu → Prop
  | ⟨.UFrame _, asdu⟩ => asdu = none
  | ⟨.SFrame r, asdu⟩ => r < 32768 ∧ asdu = none
  | ⟨.IFrame s r, none⟩ => s < 32768 ∧ r < 32768
  | ⟨.IFrame s r, some a⟩ =>
      s < 32768 ∧ r < 32768 ∧ a.objects = [] ∧ a.header.vsq.count < 128 ∧
      a.header.originator < 256 ∧ a.header.common_address < 65536 ∧
      a.raw_data.length ≤ 243

/-- C1 (counterexample): the round-trip fails for a valid I-frame APDU whose
ASDU carries a parsed information object — the station-interrogation
command.  Encoding serialises the object into the payload, but the decoder
parses only the 6-byte ASDU header and leaves the payload in `raw_data`
with `objects` empty, so decode does not return the original APDU. -/
theorem c1_counterexample :
    Iec104Codec.encode (Apdu.i_frame 0 0 (Asdu.interrogation_command 1 20)) =
      .ok [0x68, 0x0E, 0x00, 0x00, 0x00, 0x00, 0x64, 0x01, 0x06, 0x00,
           0x01, 0x00, 0x00, 0x00, 0x00, 0x14] ∧
    (Iec104Codec.decode
        [0x68, 0x0E, 0x00, 0x00, 0x00, 0x00, 0x64, 0x01, 0x06, 0x00,
         0x01, 0x00, 0x00, 0x00, 0x00, 0x14]).1 ≠
      .frame (Apdu.i_frame 0 0 (Asdu.interrogation_command 1 20)) := by
  decide

/-- C1 (amended): for every wire-representable APDU — every U-frame, every
S-frame with a 15-bit receive sequence, and every I-frame with 15-bit
sequence numbers whose ASDU is in wire form (payload in `raw_data`, no
parsed objects) — encoding succeeds and a fresh decoder returns exactly the
original APDU, consuming the entire encoding. -/
theorem c1_encode_decode_roundtrip (a : Apdu) (h : a.wireValid) :
    ∃ bytes, Iec104Codec.encode a = .ok bytes ∧
      Iec104Codec.decode bytes = (.frame a, .WaitingForStart, []) := by
  match a with
  | ⟨.UFrame fn, asdu⟩ =>
    obtain rfl : asdu = none := h
    cases fn <;> exact ⟨_, rfl, by decide⟩
  | ⟨.SFrame r, asdu⟩ =>
    obtain ⟨hr, rfl⟩ := h
    refine ⟨START_BYTE :: 4 :: Apci.encode (.SFrame r), ?_, ?_⟩
    · simp [Iec104Codec.encode, Apci.encode_header, MAX_APDU_LENGTH,
        Asdu.encoded_len]
    · show decodeCallF
        (2 * (START_BYTE :: 4 :: Apci.encode (.SFrame r)).length + 3)
        .WaitingForStart _ = _
      rw [decodeCallF_single_frame _ 4 _ (by decide) (by decide)
        (apci_encode_length _)]
      rw [show (Apci.encode (.SFrame r)).take 4 = Apci.encode (.SFrame r)
          from by rw [← apci_encode_length (.SFrame r)]; exact
            List.take_length _]
      rw [apci_parse_encode (.SFrame r) hr]
      rfl
  | ⟨.IFrame s r, none⟩ =>
    obtain ⟨hs, hr⟩ := h
    refine ⟨START_BYTE :: 4 :: Apci.encode (.IFrame s r), ?_, ?_⟩
    · simp [Iec104Codec.encode, Apci.encode_header, MAX_APDU_LENGTH,
        Asdu.encoded_len]
    · show decodeCallF
        (2 * (START_BYTE :: 4 :: Apci.encode (.IFrame s r)).length + 3)
        .WaitingForStart _ = _
      rw [decodeCallF_single_frame _ 4 _ (by decide) (by decide)
        (apci_encode_length _)]
      rw [show (Apci.encode (.IFrame s r)).take 4 = Apci.encode (.IFrame s r)
          from by rw [← apci_encode_length (.IFrame s r)]; exact
            List.take_length _]
      rw [apci_parse_encode (.IFrame s r) ⟨hs, hr⟩]
      rfl
  | ⟨.IFrame s r, some a⟩ =>
    obtain ⟨hs, hr, hobjs, hcount, horig, hca, hraw⟩ := h
    obtain ⟨hd, objs, raw⟩ := a
    simp only at hobjs hcount horig hca hraw
    subst hobjs
    have hel : Asdu.encoded_len ⟨hd, [], raw⟩ = 6 + raw.length :=
      Asdu.encoded_len_raw_form _ rfl
    have het : Asdu.encode_to ⟨hd, [], raw⟩ = hd.encode ++ raw :=
      Asdu.encode_to_raw_form _ rfl
    refine ⟨START_BYTE :: (10 + raw.length) ::
      (Apci.encode (.IFrame s r) ++ (hd.encode ++ raw)), ?_, ?_⟩
    · simp only [Iec104Codec.encode, hel, het, MAX_APDU_LENGTH,
        Apci.encode_header, START_BYTE]
      rw [if_neg (by omega)]
      rw [show (4 + (6 + raw.length)) % 256 = 10 + raw.length from by
        omega]
      simp
    · show decodeCallF
        (2 * (START_BYTE :: (10 + raw.length) ::
          (Apci.encode (.IFrame s r) ++ (hd.encode ++ raw))).length + 3)
        .WaitingForStart _ = _
      have hblen : (Apci.encode (.IFrame s r) ++ (hd.encode ++ raw)).length
          = 10 + raw.length := by
        simp [List.length_append, apci_encode_length,
          asdu_header_encode_length]
        omega
      rw [decodeCallF_single_frame _ (10 + raw.length) _
        (by show ¬ 10 + raw.length < 4; omega)
        (by show ¬ 10 + raw.length > 253; omega) hblen]
      rw [Apci.encode_append_take4, apci_parse_encode (.IFrame s r) ⟨hs, hr⟩]
      dsimp only
      rw [if_pos ⟨rfl, by omega⟩]
      rw [Apci.encode_append_drop4]
      have hparse : Asdu.parse_bytes (hd.encode ++ raw) =
          .ok ⟨hd, [], raw⟩ := by
        simp only [Asdu.parse_bytes, asdu_header_parse_encode hd hcount hca
          raw, AsduHeader.encode_append_drop6]
      rw [hparse]

theorem c1_encode_decode_roundtrip_witness :
    ∃ bytes,
      Iec104Codec.encode
        ⟨.IFrame 5 9, some ⟨⟨.MeasuredFloat, ⟨1, false⟩, .Spontaneous,
          false, false, 0, 1⟩, [], [0xB8, 0x0B, 0x00, 0x00, 0x00, 0xBC,
          0x41, 0x00]⟩⟩ = .ok bytes ∧
      Iec104Codec.decode bytes =
        (.frame ⟨.IFrame 5 9, some ⟨⟨.MeasuredFloat, ⟨1, false⟩,
          .Spontaneous, false, false, 0, 1⟩, [], [0xB8, 0x0B, 0x00, 0x00,
          0x00, 0xBC, 0x41, 0x00]⟩⟩, .WaitingForStart, []) :=
  c1_encode_decode_roundtrip
    ⟨.IFrame 5 9, some ⟨⟨.MeasuredFloat, ⟨1, false⟩, .Spontaneous, false,
      false, 0, 1⟩, [], [0xB8, 0x0B, 0x00, 0x00, 0x00, 0xBC, 0x41, 0x00]⟩⟩
    (by decide)

/-- The type identifiers whose ASDUs `parse_asdu` decodes into data points
(every other supported type maps to `Ok(Vec::new())`). -/
def producesDataPoints : TypeId → Bool
  | .SinglePoint | .SinglePointTime24 | .SinglePointTime56
  | .DoublePoint | .DoublePointTime24 | .DoublePointTime56
  | .StepPosition | .Bitstring32
  | .MeasuredNormalized | .MeasuredNormalizedTime24
  | .MeasuredScaled | .MeasuredScaledTime24
  | .MeasuredFloat | .MeasuredFloatTime24 | .MeasuredFloatTime56
  | .IntegratedTotals => true
  | _ => false

/-- C7 (counterexample): a sequenced ASDU of a command type — here an
interrogation command with VSQ count 1, sequence bit set, and one
information object in the payload — parses successfully to an *empty* point
list, not to 1 data point with IOA 0 as the claim requires for every
sequenced ASDU. -/
theorem c7_counterexample :
    (⟨⟨.InterrogationCommand, ⟨1, true⟩, .Activation, false, false, 0, 1⟩,
      [], [0x00, 0x00, 0x00, 0x14]⟩ : Asdu).header.vsq.sequence = true ∧
    (⟨⟨.InterrogationCommand, ⟨1, true⟩, .Activation, false, false, 0, 1⟩,
      [], [0x00, 0x00, 0x00, 0x14]⟩ : Asdu).header.vsq.count = 1 ∧
    parse_asdu
      ⟨⟨.InterrogationCommand, ⟨1, true⟩, .Activation, false, false, 0, 1⟩,
        [], [0x00, 0x00, 0x00, 0x14]⟩ = .ok [] := by
  decide

/-- C7 (amended): for every sequenced ASDU of a data-point-producing type
that parses successfully, the parser returns exactly `count` data points
whose IOAs are `b, b + 1, …, b + count − 1` in order, where `b` is the base
IOA read from the first three payload bytes. -/
theorem c7_sequenced_consecutive_ioas (asdu : Asdu) (pts : List DataPoint)
    (b : Nat) (htype : producesDataPoints asdu.header.type_id = true)
    (hseq : asdu.header.vsq.sequence = true)
    (hok : parse_asdu asdu = .ok pts)
    (hb : parse_ioa (asdu.raw_data.take 3) = .ok b) :
    pts.length = asdu.header.vsq.count ∧
    pts.map DataPoint.ioa = List.range' b asdu.header.vsq.count := by
  simp only [parse_asdu] at hok
  split at hok
  · exact absurd hok (by simp)
  · cases htid : asdu.header.type_id <;> rw [htid] at hok htype <;>
      simp only [producesDataPoints, Bool.false_eq_true] at htype <;>
      (dsimp only at hok
       rw [hseq] at hok
       simp only [parse_single_point, parse_single_point_time24,
         parse_double_point, parse_double_point_time24,
         parse_step_position, parse_bitstring, parse_measured_normalized,
         parse_measured_scaled, parse_measured_float,
         parse_integrated_totals] at hok
       have hres := parseObjects_seq_ioas _ _ _ _ _ _ hok hb
       exact ⟨hres.2, hres.1⟩)

theorem c7_sequenced_consecutive_ioas_witness :
    ([⟨100, .Single false, ⟨0⟩, none⟩, ⟨101, .Single true, ⟨0⟩, none⟩,
      ⟨102, .Single false, ⟨16⟩, none⟩] : List DataPoint).length = 3 ∧
    ([⟨100, .Single false, ⟨0⟩, none⟩, ⟨101, .Single true, ⟨0⟩, none⟩,
      ⟨102, .Single false, ⟨16⟩, none⟩] : List DataPoint).map
        DataPoint.ioa = List.range' 100 3 :=
  by
    have h := c7_sequenced_consecutive_ioas
      ⟨⟨.SinglePoint, ⟨3, true⟩, .Spontaneous, false, false, 0, 1⟩, [],
        [0x64, 0x00, 0x00, 0x00, 0x01, 0x80]⟩
      [⟨100, .Single false, ⟨0⟩, none⟩, ⟨101, .Single true, ⟨0⟩, none⟩,
       ⟨102, .Single false, ⟨16⟩, none⟩]
      100 (by decide) (by decide) (by decide) (by decide)
    exact h

/-- C9: for the CP24-tagged measured types — type 10 (normalized), 12
(scaled) and 14 (short float) — `parse_asdu` dispatches to the very same
parser call as for the untimed types 9, 11 and 13 (so the per-element sizes
are 3, 3 and 5 bytes and the 3-byte CP24 tag is never consumed), and every
data point produced for these types carries `timestamp = none`. -/
theorem c9_cp24_measured_untimed (hd : AsduHeader)
    (objs : List InformationObject) (raw : List Nat)
    (pts : List DataPoint) :
    (parse_asdu ⟨{hd with type_id := .MeasuredNormalizedTime24}, objs, raw⟩ =
      parse_asdu ⟨{hd with type_id := .MeasuredNormalized}, objs, raw⟩) ∧
    (parse_asdu ⟨{hd with type_id := .MeasuredScaledTime24}, objs, raw⟩ =
      parse_asdu ⟨{hd with type_id := .MeasuredScaled}, objs, raw⟩) ∧
    (parse_asdu ⟨{hd with type_id := .MeasuredFloatTime24}, objs, raw⟩ =
      parse_asdu ⟨{hd with type_id := .MeasuredFloat}, objs, raw⟩) ∧
    (parse_asdu ⟨{hd with type_id := .MeasuredNormalizedTime24}, objs, raw⟩
        = .ok pts → ∀ p ∈ pts, p.timestamp = none) ∧
    (parse_asdu ⟨{hd with type_id := .MeasuredScaledTime24}, objs, raw⟩
        = .ok pts → ∀ p ∈ pts, p.timestamp = none) ∧
    (parse_asdu ⟨{hd with type_id := .MeasuredFloatTime24}, objs, raw⟩
        = .ok pts → ∀ p ∈ pts, p.timestamp = none) := by
  refine ⟨rfl, rfl, rfl, ?_, ?_, ?_⟩ <;>
    (intro h
     simp only [parse_asdu] at h
     split at h
     · exact absurd h (by simp)
     · simp only [parse_measured_normalized, parse_measured_scaled,
         parse_measured_float] at h
       refine parseObjects_timestamp_none _ _ _ _ _ _ ?_ h
       intro d o r hr
       cases hr
       rfl)

theorem c9_cp24_measured_untimed_witness :
    parse_asdu ⟨⟨.MeasuredNormalizedTime24, ⟨1, false⟩, .Spontaneous, false,
        false, 0, 1⟩, [], [0x88, 0x13, 0x00, 0x00, 0x40, 0x00]⟩ =
      parse_asdu ⟨⟨.MeasuredNormalized, ⟨1, false⟩, .Spontaneous, false,
        false, 0, 1⟩, [], [0x88, 0x13, 0x00, 0x00, 0x40, 0x00]⟩ :=
  (c9_cp24_measured_untimed
    ⟨.MeasuredNormalized, ⟨1, false⟩, .Spontaneous, false, false, 0, 1⟩
    [] [0x88, 0x13, 0x00, 0x00, 0x40, 0x00] []).1

theorem c10_cp56_roundtrip_witness :
    Cp56Time2a.from_bytes
        (Cp56Time2a.to_bytes ⟨30000, 30, 12, 15, 3, 6, 24, false, true⟩) =
      .ok ⟨30000, 30, 12, 15, 3, 6, 24, false, true⟩ :=
  (c10_cp56_roundtrip ⟨30000, 30, 12, 15, 3, 6, 24, false, true⟩
    (by decide) (by decide) (by decide) (by decide) (by decide) (by decide)
    (by decide)).2

end Voltage104
